import Mathlib

/-!
Order lifecycle of the food-ordering backend

A shallow embedding of `backend/models/Order.js`, `backend/models/MenuItem.js`,
`backend/routes/orders.js` and `backend/routes/payments.js`.

Modelling conventions

* MongoDB collections are lists of documents; a handler is a function from the
  database (and the request) to a response and the database afterwards.
* A JavaScript number that holds money is a rational standing for the IEEE 754
  double nearest to it (`toDouble`); `*` and `+` on such numbers are `jsMul`
  and `jsAdd`, which round the exact result to the nearest double, ties to
  even.  Magnitudes stay below 2^1024: overflow to `Infinity` is not modelled.
  Counts and times are integers, which a double below 2^53 holds exactly.
* An `ObjectId` is a number below 16^24; the creation request carries the ids
  of its lines as strings, as JSON does.
* `new Date()` is the argument `now` of a handler, a fresh `ObjectId` is the
  argument `newId`.
* The Stripe client is a record of functions; a call that throws is `none`.
* `save()` of a new document validates it against the schema, then runs the
  `pre('save')` hook, then inserts it; a document that fails validation makes
  `save()` throw.  Stored documents satisfy the schema and `save()` of a
  stored document writes it back.  The automatic `createdAt`/`updatedAt`
  stamps are left out.
* Handlers are the functions registered on the router, entered after the
  `auth`/`adminAuth` middleware; `req.user` is an argument.
-/

namespace FoodApp

/-! ## Data model -/

abbrev ObjectId := Nat

/-- Milliseconds since the epoch. -/
abbrev Date := Int

/-- The `status` enum of `orderSchema`. -/
inductive Status where
  | placed | confirmed | preparing | ready | completed | cancelled
  deriving DecidableEq, Repr

/-- The string stored for a status. -/
def Status.toString : Status → String
  | .placed => "placed"
  | .confirmed => "confirmed"
  | .preparing => "preparing"
  | .ready => "ready"
  | .completed => "completed"
  | .cancelled => "cancelled"

/-- Reading of a request string as a status: the strings accepted by
`body('status').isIn([...])`. -/
def Status.ofString? (s : String) : Option Status :=
  if s = "placed" then some .placed
  else if s = "confirmed" then some .confirmed
  else if s = "preparing" then some .preparing
  else if s = "ready" then some .ready
  else if s = "completed" then some .completed
  else if s = "cancelled" then some .cancelled
  else none

/-- The `paymentStatus` enum of `orderSchema`. -/
inductive PaymentStatus where
  | pending | paid | failed | refunded
  deriving DecidableEq, Repr

/-- The `paymentMethod` enum of `orderSchema`. -/
inductive PaymentMethod where
  | stripe | cash | card
  deriving DecidableEq, Repr

/-- The fields of `menuItemSchema` read or written by the order routes. -/
structure MenuItem where
  _id : ObjectId
  name : String
  price : ℚ
  stock : Int
  isAvailable : Bool
  prepTime : Int
  deriving DecidableEq, Repr

/-- A document of `orderItemSchema`. -/
structure OrderItem where
  menuItem : ObjectId
  name : String
  price : ℚ
  quantity : Int
  subtotal : ℚ
  deriving DecidableEq, Repr

/-- An element of `statusHistory`. -/
structure StatusEntry where
  status : Status
  timestamp : Date
  updatedBy : Option ObjectId
  notes : Option String
  deriving DecidableEq, Repr

/-- A document of `orderSchema`; an optional path, and `orderNumber` on a
document not yet saved, can be absent. -/
structure Order where
  _id : ObjectId
  orderNumber : Option String
  user : ObjectId
  items : List OrderItem
  status : Status
  paymentStatus : PaymentStatus
  paymentMethod : PaymentMethod
  stripePaymentIntentId : Option String
  subtotal : ℚ
  tax : ℚ
  total : ℚ
  estimatedPrepTime : Int
  actualPrepTime : Option Int
  specialInstructions : Option String
  statusHistory : List StatusEntry
  pickupTime : Option Date
  completedAt : Option Date
  cancelledAt : Option Date
  cancellationReason : Option String
  deriving DecidableEq, Repr

/-- The two collections the routes work on. -/
structure Db where
  menuItems : List MenuItem
  orders : List Order
  deriving DecidableEq, Repr

/-- An error response: HTTP status and `message`. -/
structure Failure where
  status : Nat
  message : String
  deriving DecidableEq, Repr

/-- What a handler answers: a success carrying `data`, or a failure. -/
inductive Response (α : Type) where
  | ok (data : α)
  | error (failure : Failure)
  deriving DecidableEq, Repr

/-- The response is a success. -/
def Response.isOk {α : Type} : Response α → Bool
  | .ok _ => true
  | .error _ => false

/-! ## JavaScript numbers and strings -/

/-- Rounding of a rational to the nearest integer, ties to the even one. -/
def roundHalfEven (x : ℚ) : Int :=
  let n := ⌊x⌋
  if x - n < 1 / 2 then n
  else if 1 / 2 < x - n then n + 1
  else if n % 2 = 0 then n else n + 1

/-- The exponent of the last binary place of the double nearest to `x`: 52
below the binade of `|x|`, and -1074 throughout the subnormal range. -/
def ulpExponent (x : ℚ) : Int := max (Int.log 2 |x| - 52) (-1074)

/-- The IEEE 754 double nearest to `x`, ties to even: the value a Number holds
when `x` is written or computed. -/
def toDouble (x : ℚ) : ℚ := roundHalfEven (x / 2 ^ ulpExponent x) * 2 ^ ulpExponent x

/-- The product `a * b` of two Numbers. -/
def jsMul (a b : ℚ) : ℚ := toDouble (toDouble a * toDouble b)

/-- The sum `a + b` of two Numbers. -/
def jsAdd (a b : ℚ) : ℚ := toDouble (toDouble a + toDouble b)

/-- The `length` of a JavaScript string: its UTF-16 code units. -/
def jsLength (s : String) : Nat :=
  (s.data.map (fun c => if c.toNat < 65536 then 1 else 2)).sum

/-- The value of a hexadecimal digit, of either case. -/
def hexDigit? (c : Char) : Option Nat :=
  if 48 ≤ c.toNat ∧ c.toNat ≤ 57 then some (c.toNat - 48)
  else if 97 ≤ c.toNat ∧ c.toNat ≤ 102 then some (c.toNat - 87)
  else if 65 ≤ c.toNat ∧ c.toNat ≤ 70 then some (c.toNat - 55)
  else none

/-- The characters are hexadecimal digits, at least one. -/
def hexDigits (cs : List Char) : Bool :=
  decide (cs ≠ []) && cs.all (fun c => (hexDigit? c).isSome)

/-- The check `isHexadecimal` of the validator library: hexadecimal digits of
either case after an optional `0x` or `0h`. -/
def isHexadecimal (str : String) : Bool :=
  hexDigits str.data ||
    match str.data with
    | a :: b :: rest =>
      decide (a.toNat = 48) && decide (b.toNat ∈ [120, 88, 104, 72]) && hexDigits rest
    | _ => false

/-- The check `isMongoId` of the validator library. -/
def isMongoId (str : String) : Bool := isHexadecimal str && decide (str.length = 24)

/-- The cast of a string to an `ObjectId` that Mongoose applies to a query on
`_id`: 24 hexadecimal digits of either case; on any other string the cast
throws, which is `none`. -/
def castObjectId (value : String) : Option ObjectId :=
  if value.length = 24 ∧ value.data.all (fun c => (hexDigit? c).isSome) then
    some (value.data.foldl (fun n c => 16 * n + (hexDigit? c).getD 0) 0)
  else none

/-- The casts of the strings of an `$in` list. -/
def castObjectIds : List String → Option (List ObjectId)
  | [] => some []
  | value :: rest =>
    match castObjectId value, castObjectIds rest with
    | some id, some ids => some (id :: ids)
    | _, _ => none

/-- `String(n).padStart(width, fill)`. -/
def padStart (s : String) (width : Nat) (fill : Char) : String :=
  String.mk (List.replicate (width - s.length) fill) ++ s

/-- `ObjectId.prototype.toString`: the 24 hexadecimal digits, in lower case. -/
def ObjectId.toString (id : ObjectId) : String :=
  padStart (String.mk (Nat.toDigits 16 id)) 24 (Char.ofNat 48)

/-! ## `models/Order.js` -/

/-- `Math.round` on a rational: the nearest integer, halves towards +∞. -/
def mathRound (x : ℚ) : Int := ⌊x + 1 / 2⌋

/-- `orderSchema.methods.updateStatus` up to its final `this.save()`; an absent
`notes` argument takes the default `''`. -/
def Order.updateStatus (self : Order) (newStatus : Status) (updatedBy : Option ObjectId)
    (notes : Option String) (now : Date) : Order :=
  let this := { self with status := newStatus }
  -- Add to status history
  let this := { this with
    statusHistory := this.statusHistory ++
      [{ status := newStatus, timestamp := now, updatedBy := updatedBy,
         notes := some (notes.getD "") }] }
  -- Set completion time if completed
  let this :=
    if newStatus = .completed then
      let this := { this with completedAt := some now }
      if 1 < this.statusHistory.length then
        match this.statusHistory.head? with
        | some first =>
          { this with actualPrepTime := some (mathRound (((now - first.timestamp : Int) : ℚ) / (1000 * 60))) }
        | none => this
      else this
    else this
  -- Set cancellation time if cancelled
  if newStatus = .cancelled then { this with cancelledAt := some now } else this

/-- `Order.findById`. -/
def Order.findById (orders : List Order) (id : ObjectId) : Option Order :=
  orders.find? (fun o => o._id = id)

/-- The write of `save()` for a stored document: the document with the same
`_id` is replaced. -/
def Order.store (orders : List Order) (order : Order) : List Order :=
  match orders with
  | [] => []
  | o :: rest => if o._id = order._id then order :: rest else o :: Order.store rest order

/-! ## `routes/orders.js`: `PUT /api/orders/:id/status` -/

/-- The table `validTransitions`. -/
def validTransitions : Status → List Status
  | .placed => [.confirmed, .cancelled]
  | .confirmed => [.preparing, .cancelled]
  | .preparing => [.ready, .cancelled]
  | .ready => [.completed]
  | .completed => []
  | .cancelled => []

/-- Body of a status-update request; `notes` and `cancellationReason` are the
values left by the `trim()` sanitizer. -/
structure StatusUpdateBody where
  status : String
  notes : Option String
  cancellationReason : Option String
  deriving DecidableEq, Repr

/-- The validation chain of the status route; on success the status read. -/
def validateStatusUpdate (body : StatusUpdateBody) : Option Status :=
  match Status.ofString? body.status with
  | none => none
  | some status =>
    if (body.notes.getD "").length ≤ 200 ∧ (body.cancellationReason.getD "").length ≤ 200 then
      some status
    else none

/-- JavaScript truthiness of an optional string. -/
def truthy (s : Option String) : Bool :=
  match s with
  | none => false
  | some v => v ≠ ""

/-- The handler of `PUT /api/orders/:id/status`. -/
def updateOrderStatus (db : Db) (id : ObjectId) (body : StatusUpdateBody) (userId : ObjectId)
    (now : Date) : Response Order × Db :=
  match validateStatusUpdate body with
  | none => (.error ⟨400, "Validation failed"⟩, db)
  | some status =>
    match Order.findById db.orders id with
    | none => (.error ⟨404, "Order not found"⟩, db)
    | some order =>
      -- Validate status transition
      if ¬ (validTransitions order.status).contains status then
        (.error ⟨400, "Cannot change status from " ++ order.status.toString ++ " to "
          ++ status.toString⟩, db)
      else
        -- Add cancellation reason if cancelling
        let order :=
          if status = .cancelled ∧ truthy body.cancellationReason then
            { order with cancellationReason := body.cancellationReason }
          else order
        -- Update order status
        let order := order.updateStatus status (some userId) body.notes now
        (.ok order, { db with orders := Order.store db.orders order })

/-! ## `routes/orders.js`: `POST /api/orders` -/

/-- An element of `req.body.items`; `menuItem` is the id as the request
writes it. -/
structure CartLine where
  menuItem : String
  quantity : Int
  deriving DecidableEq, Repr

/-- Body of an order-creation request; `specialInstructions` is the value left
by the `trim()` sanitizer. -/
structure CreateOrderBody where
  items : List CartLine
  specialInstructions : Option String
  deriving DecidableEq, Repr

/-- The validation chain of the creation route: at least one item, every item
id accepted by `isMongoId`, every quantity an integer of at least 1,
instructions of at most 500 characters. -/
def validateCreateOrder (body : CreateOrderBody) : Bool :=
  decide (1 ≤ body.items.length) && body.items.all (fun item => isMongoId item.menuItem)
    && body.items.all (fun item => decide (1 ≤ item.quantity))
    && decide ((body.specialInstructions.getD "").length ≤ 500)

/-- `MenuItem.find({ _id: { $in: ids } })`, on the ids already cast. -/
def MenuItem.findIn (menuItems : List MenuItem) (ids : List ObjectId) : List MenuItem :=
  menuItems.filter (fun item => decide (item._id ∈ ids))

/-- `MenuItem.findByIdAndUpdate(id, { stock, isAvailable })`: the first document
with that `_id` is rewritten. -/
def MenuItem.findByIdAndUpdate (menuItems : List MenuItem) (id : ObjectId) (stock : Int)
    (isAvailable : Bool) : List MenuItem :=
  match menuItems with
  | [] => []
  | item :: rest =>
    if item._id = id then { item with stock := stock, isAvailable := isAvailable } :: rest
    else item :: MenuItem.findByIdAndUpdate rest id stock isAvailable

/-- An element of `stockUpdates`. -/
structure StockUpdate where
  id : ObjectId
  newStock : Int
  deriving DecidableEq, Repr

/-- The variables the creation loop accumulates. -/
structure Tally where
  subtotal : ℚ
  orderItems : List OrderItem
  stockUpdates : List StockUpdate
  deriving DecidableEq, Repr

/-- The loop `for (const orderItem of items)` of the creation route, started
with the accumulated variables `acc`.  The item of a line is the one whose
`_id.toString()` is the string the request wrote; when there is none,
`menuItem.isAvailable` throws, which the handler's `catch` answers with 500. -/
def checkItems (menuItems : List MenuItem) : List CartLine → Tally → Response Tally
  | [], acc => .ok acc
  | orderItem :: rest, acc =>
    match menuItems.find? (fun item => item._id.toString = orderItem.menuItem) with
    | none => .error ⟨500, "Server error while creating order"⟩
    | some menuItem =>
      if ¬ menuItem.isAvailable then
        .error ⟨400, menuItem.name ++ " is currently unavailable"⟩
      else if menuItem.stock < orderItem.quantity then
        .error ⟨400, "Insufficient stock for " ++ menuItem.name ++ ". Available: "
          ++ toString menuItem.stock⟩
      else
        let itemSubtotal := jsMul menuItem.price orderItem.quantity
        checkItems menuItems rest
          { subtotal := jsAdd acc.subtotal itemSubtotal
            orderItems := acc.orderItems ++
              [{ menuItem := menuItem._id, name := menuItem.name, price := menuItem.price,
                 quantity := orderItem.quantity, subtotal := itemSubtotal }]
            stockUpdates := acc.stockUpdates ++
              [{ id := menuItem._id, newStock := menuItem.stock - orderItem.quantity }] }

/-- `Math.max(...xs)`; `none` stands for the `-Infinity` of no arguments. -/
def mathMax : List Int → Option Int
  | [] => none
  | x :: xs => some (xs.foldl max x)

/-- The `pre('save')` hook for a new document: order number from the count of
stored orders, and the initial history entry. -/
def Order.preSave (orders : List Order) (self : Order) (now : Date) : Order :=
  { self with
    orderNumber := some ("FH" ++ padStart (toString (orders.length + 1)) 6 (Char.ofNat 48))
    statusHistory := self.statusHistory ++
      [{ status := self.status, timestamp := now, updatedBy := none, notes := none }] }

/-- The document `new Order({ user, items, subtotal, tax, total,
estimatedPrepTime, specialInstructions })`: the other paths take their schema
defaults, and `orderNumber`, which has none, is absent. -/
def Order.new (newId : ObjectId) (user : ObjectId) (items : List OrderItem) (subtotal : ℚ)
    (tax : ℚ) (total : ℚ) (estimatedPrepTime : Int) (specialInstructions : Option String) :
    Order :=
  { _id := newId, orderNumber := none, user := user, items := items,
    status := .placed, paymentStatus := .pending, paymentMethod := .stripe,
    stripePaymentIntentId := none, subtotal := subtotal, tax := tax,
    total := total, estimatedPrepTime := estimatedPrepTime, actualPrepTime := none,
    specialInstructions := specialInstructions, statusHistory := [],
    pickupTime := none, completedAt := none, cancelledAt := none,
    cancellationReason := none }

/-- The validation of a document against `orderSchema`, which `save()` runs
before the `pre('save')` hooks: the required paths are present (a required
string is not empty), the numbers respect `min`, the strings `maxlength`.  The
enum paths hold a value of their enum by their type. -/
def Order.validate (self : Order) : Bool :=
  (match self.orderNumber with
    | none => false
    | some orderNumber => decide (orderNumber ≠ ""))
  && self.items.all (fun line =>
      decide (line.name ≠ "") && decide (0 ≤ line.price) && decide (1 ≤ line.quantity)
        && decide (0 ≤ line.subtotal))
  && decide (0 ≤ self.subtotal) && decide (0 ≤ self.tax) && decide (0 ≤ self.total)
  && decide (1 ≤ self.estimatedPrepTime)
  && decide (jsLength (self.specialInstructions.getD "") ≤ 500)
  && decide (jsLength (self.cancellationReason.getD "") ≤ 200)

/-- `save()` of a new document: it is validated, then the `pre('save')` hook
runs, then the document is inserted.  A document that fails validation makes
`save()` throw, which is `none`; otherwise the document stored and the
collection afterwards. -/
def Order.save (orders : List Order) (self : Order) (now : Date) :
    Option (Order × List Order) :=
  if self.validate then
    let doc := Order.preSave orders self now
    some (doc, orders ++ [doc])
  else none

/-- The stock writes `Promise.all(stockUpdates.map(...))`. -/
def applyStockUpdates (menuItems : List MenuItem) (stockUpdates : List StockUpdate) :
    List MenuItem :=
  stockUpdates.foldl
    (fun items update =>
      MenuItem.findByIdAndUpdate items update.id update.newStock (decide (update.newStock > 0)))
    menuItems

/-- The handler of `POST /api/orders`.  Whatever throws inside the `try` is
answered with 500 by the `catch`: an id the query cannot cast, a line without
its item, and a `save()` that fails validation.  With no menu item found
`Math.max()` is `-Infinity`, which `min: 1` of `estimatedPrepTime` refuses at
`save()`. -/
def createOrder (db : Db) (userId : ObjectId) (body : CreateOrderBody) (newId : ObjectId)
    (now : Date) : Response Order × Db :=
  if ¬ validateCreateOrder body then (.error ⟨400, "Validation failed"⟩, db)
  else
    let items := body.items
    -- Validate menu items and check stock
    let menuItemIds := items.map (fun item => item.menuItem)
    match castObjectIds menuItemIds with
    | none => (.error ⟨500, "Server error while creating order"⟩, db)
    | some ids =>
      let menuItems := MenuItem.findIn db.menuItems ids
      if menuItems.length ≠ items.length then
        (.error ⟨400, "One or more menu items not found"⟩, db)
      else
        -- Check stock availability and calculate totals
        match checkItems menuItems items
            { subtotal := 0, orderItems := [], stockUpdates := [] } with
        | .error failure => (.error failure, db)
        | .ok acc =>
          -- Calculate tax and total (assuming 8% tax)
          let tax := jsMul acc.subtotal 0.08
          let total := jsAdd acc.subtotal tax
          -- Calculate estimated prep time (max prep time + 5 minutes buffer)
          match mathMax (menuItems.map (fun item => item.prepTime)) with
          | none => (.error ⟨500, "Server error while creating order"⟩, db)
          | some maxPrepTime =>
            let estimatedPrepTime := maxPrepTime + 5
            -- Create order
            let order := Order.new newId userId acc.orderItems acc.subtotal tax total
              estimatedPrepTime body.specialInstructions
            match Order.save db.orders order now with
            | none => (.error ⟨500, "Server error while creating order"⟩, db)
            | some saved =>
              -- Update stock for all items
              (.ok saved.1,
                { menuItems := applyStockUpdates db.menuItems acc.stockUpdates
                  orders := saved.2 })

/-! ## `routes/payments.js` -/

/-- What the routes read of a Stripe payment intent. -/
structure PaymentIntent where
  id : String
  status : String
  clientSecret : String
  deriving DecidableEq, Repr

/-- An event delivered to the webhook, after signature verification. -/
structure StripeEvent where
  type : String
  object : PaymentIntent
  deriving DecidableEq, Repr

/-- The Stripe client; `none` is a call that throws. -/
structure Stripe where
  create : Int → ObjectId → Option PaymentIntent
  retrieve : String → Option PaymentIntent
  constructEvent : String → String → Option StripeEvent

/-- `Order.findOne({ stripePaymentIntentId })`. -/
def Order.findByIntent (orders : List Order) (paymentIntentId : String) : Option Order :=
  orders.find? (fun o => o.stripePaymentIntentId = some paymentIntentId)

/-- `Order.findOne({ stripePaymentIntentId, user })`. -/
def Order.findByIntentAndUser (orders : List Order) (paymentIntentId : String)
    (userId : ObjectId) : Option Order :=
  orders.find? (fun o => o.stripePaymentIntentId = some paymentIntentId ∧ o.user = userId)

/-- `Order.findOne({ _id, user })`. -/
def Order.findByIdAndUser (orders : List Order) (id : ObjectId) (userId : ObjectId) :
    Option Order :=
  orders.find? (fun o => o._id = id ∧ o.user = userId)

/-- The handler of `POST /api/payments/create-payment-intent`; the answer is
the payment intent created. -/
def createPaymentIntent (stripe : Stripe) (db : Db) (orderId : ObjectId) (userId : ObjectId) :
    Response PaymentIntent × Db :=
  -- Find the order
  match Order.findByIdAndUser db.orders orderId userId with
  | none => (.error ⟨404, "Order not found"⟩, db)
  | some order =>
    -- Check if order is already paid
    if order.paymentStatus = .paid then (.error ⟨400, "Order is already paid"⟩, db)
    else
      -- Create payment intent
      match stripe.create (mathRound (jsMul order.total 100)) order._id with
      | none => (.error ⟨500, "Server error while creating payment intent"⟩, db)
      | some paymentIntent =>
        -- Update order with payment intent ID
        let order := { order with stripePaymentIntentId := some paymentIntent.id }
        (.ok paymentIntent, { db with orders := Order.store db.orders order })

/-- The handler of `POST /api/payments/confirm-payment`. -/
def confirmPayment (stripe : Stripe) (db : Db) (paymentIntentId : String) (userId : ObjectId)
    (now : Date) : Response Order × Db :=
  if paymentIntentId = "" then (.error ⟨400, "Validation failed"⟩, db)
  else
    -- Retrieve payment intent from Stripe
    match stripe.retrieve paymentIntentId with
    | none => (.error ⟨500, "Server error while confirming payment"⟩, db)
    | some paymentIntent =>
      if paymentIntent.status ≠ "succeeded" then (.error ⟨400, "Payment not completed"⟩, db)
      else
        -- Find and update order
        match Order.findByIntentAndUser db.orders paymentIntentId userId with
        | none => (.error ⟨404, "Order not found"⟩, db)
        | some order =>
          -- Update payment status
          let order := { order with paymentStatus := .paid, paymentMethod := .stripe }
          let order := order.updateStatus .confirmed none (some "Payment confirmed") now
          (.ok order, { db with orders := Order.store db.orders order })

/-- Helper `handlePaymentSuccess`. -/
def handlePaymentSuccess (db : Db) (paymentIntent : PaymentIntent) (now : Date) : Db :=
  match Order.findByIntent db.orders paymentIntent.id with
  | none => db
  | some order =>
    if order.paymentStatus ≠ .paid then
      let order := { order with paymentStatus := .paid }
      let order := order.updateStatus .confirmed none (some "Payment confirmed via webhook") now
      { db with orders := Order.store db.orders order }
    else db

/-- Helper `handlePaymentFailure`. -/
def handlePaymentFailure (db : Db) (paymentIntent : PaymentIntent) : Db :=
  match Order.findByIntent db.orders paymentIntent.id with
  | none => db
  | some order =>
    let order := { order with paymentStatus := .failed }
    { db with orders := Order.store db.orders order }

/-- The handler of `POST /api/payments/webhook`: the HTTP status answered and
the database afterwards. -/
def webhook (stripe : Stripe) (db : Db) (rawBody : String) (sig : String) (now : Date) :
    Nat × Db :=
  match stripe.constructEvent rawBody sig with
  | none => (400, db)
  | some event =>
    -- Handle the event
    if event.type = "payment_intent.succeeded" then
      (200, handlePaymentSuccess db event.object now)
    else if event.type = "payment_intent.payment_failed" then
      (200, handlePaymentFailure db event.object)
    else (200, db)

/-! ## `routes/menu.js`: `PUT /api/menu/:id` -/

/-- The fields of a menu-update body that the order routes read; a field left
out of the body is `none`, `name` is the value left by the `trim()` sanitizer. -/
structure MenuItemUpdate where
  name : Option String
  price : Option ℚ
  stock : Option Int
  isAvailable : Option Bool
  prepTime : Option Int
  deriving DecidableEq, Repr

/-- The validation chain of the menu-update route, on the fields modelled. -/
def validateMenuUpdate (body : MenuItemUpdate) : Bool :=
  (match body.name with
    | none => true
    | some name => decide (2 ≤ name.length ∧ name.length ≤ 100))
  && (match body.price with
    | none => true
    | some price => decide (0 ≤ price))
  && (match body.stock with
    | none => true
    | some stock => decide (0 ≤ stock))
  && (match body.prepTime with
    | none => true
    | some prepTime => decide (1 ≤ prepTime))

/-- The document after `$set` of the fields present in the body. -/
def MenuItem.assign (item : MenuItem) (body : MenuItemUpdate) : MenuItem :=
  { item with
    name := body.name.getD item.name
    price := body.price.getD item.price
    stock := body.stock.getD item.stock
    isAvailable := body.isAvailable.getD item.isAvailable
    prepTime := body.prepTime.getD item.prepTime }

/-- The write of `MenuItem.findByIdAndUpdate(id, req.body)`: the first document
with that `_id` is rewritten. -/
def MenuItem.replaceById (menuItems : List MenuItem) (id : ObjectId) (body : MenuItemUpdate) :
    List MenuItem :=
  match menuItems with
  | [] => []
  | item :: rest =>
    if item._id = id then item.assign body :: rest
    else item :: MenuItem.replaceById rest id body

/-- The handler of `PUT /api/menu/:id`. -/
def updateMenuItem (db : Db) (id : ObjectId) (body : MenuItemUpdate) : Response MenuItem × Db :=
  if ¬ validateMenuUpdate body then (.error ⟨400, "Validation failed"⟩, db)
  else
    match db.menuItems.find? (fun item => item._id = id) with
    | none => (.error ⟨404, "Menu item not found"⟩, db)
    | some item =>
      (.ok (item.assign body), { db with menuItems := MenuItem.replaceById db.menuItems id body })

/-! ## `models/MenuItem.js`: `updateStock` -/

/-- `menuItemSchema.methods.updateStock` up to its final `this.save()`. -/
def MenuItem.updateStock (self : MenuItem) (quantity : Int) : MenuItem :=
  let this := { self with stock := max 0 (self.stock - quantity) }
  if this.stock = 0 then { this with isAvailable := false } else this

/-! ## `routes/orders.js`: `GET /api/orders` and `GET /api/orders/:id` -/

/-- What the `auth` middleware leaves in `req.user`. -/
structure AuthUser where
  userId : ObjectId
  role : String
  deriving DecidableEq, Repr

/-- The filter object given to `Order.find`, `Order.countDocuments` and
`Order.findOne`; a path left out is `none`. -/
structure OrderFilter where
  _id : Option ObjectId := none
  user : Option ObjectId := none
  status : Option Status := none
  deriving DecidableEq, Repr

/-- The document satisfies the filter. -/
def OrderFilter.matches (filter : OrderFilter) (order : Order) : Bool :=
  (match filter._id with
    | none => true
    | some id => decide (order._id = id))
  && (match filter.user with
    | none => true
    | some user => decide (order.user = user))
  && (match filter.status with
    | none => true
    | some status => decide (order.status = status))

/-- The query of a list request, after the defaults `page = 1`, `limit = 10`,
`sortBy = 'createdAt'`, `sortOrder = 'desc'` are filled in. -/
structure ListOrdersQuery where
  page : Nat := 1
  limit : Nat := 10
  status : Option String := none
  sortBy : String := "createdAt"
  sortOrder : String := "desc"
  deriving DecidableEq, Repr

/-- The validation chain of the list route; on success the status filter read. -/
def validateListOrders (query : ListOrdersQuery) : Option (Option Status) :=
  if 1 ≤ query.page ∧ 1 ≤ query.limit ∧ query.limit ≤ 100 then
    match query.status with
    | none => some none
    | some s =>
      match Status.ofString? s with
      | none => none
      | some status => some (some status)
  else none

/-- The filter the list route builds: regular users see only their orders. -/
def listFilter (user : AuthUser) (status : Option Status) : OrderFilter :=
  let filter : OrderFilter :=
    if user.role = "admin" ∨ user.role = "staff" then {} else { user := some user.userId }
  match status with
  | some status => { filter with status := some status }
  | none => filter

/-- The filter the single-order route builds: regular users can only see their
own orders. -/
def singleFilter (user : AuthUser) (id : ObjectId) : OrderFilter :=
  let filter : OrderFilter := { _id := some id }
  if user.role ≠ "admin" ∧ user.role ≠ "staff" then { filter with user := some user.userId }
  else filter

/-- The value compared when sorting on the path `sortBy`; `createdAt` is the
position in the collection, a path not modelled compares equal. -/
def Order.sortKey (sortBy : String) (entry : Nat × Order) : ℚ :=
  if sortBy = "createdAt" then (entry.1 : ℚ)
  else if sortBy = "total" then entry.2.total
  else if sortBy = "subtotal" then entry.2.subtotal
  else if sortBy = "tax" then entry.2.tax
  else if sortBy = "estimatedPrepTime" then (entry.2.estimatedPrepTime : ℚ)
  else 0

/-- `Order.find(filter).sort(sort).skip(skip).limit(limit)`. -/
def Order.findPage (orders : List Order) (filter : OrderFilter) (sortBy sortOrder : String)
    (skip limit : Nat) : List Order :=
  let found := orders.enum.filter (fun entry => filter.matches entry.2)
  let sorted :=
    if sortOrder = "desc" then
      found.insertionSort (fun a b => Order.sortKey sortBy b ≤ Order.sortKey sortBy a)
    else
      found.insertionSort (fun a b => Order.sortKey sortBy a ≤ Order.sortKey sortBy b)
  ((sorted.drop skip).take limit).map (fun entry => entry.2)

/-- The `data` of a list response. -/
structure OrdersPage where
  orders : List Order
  currentPage : Nat
  totalPages : Nat
  totalItems : Nat
  itemsPerPage : Nat
  hasNextPage : Bool
  hasPrevPage : Bool
  deriving DecidableEq, Repr

/-- The handler of `GET /api/orders`. -/
def getOrders (db : Db) (user : AuthUser) (query : ListOrdersQuery) : Response OrdersPage :=
  match validateListOrders query with
  | none => .error ⟨400, "Validation failed"⟩
  | some status =>
    -- Build filter - regular users see only their orders
    let filter := listFilter user status
    -- Execute query with pagination
    let skip := (query.page - 1) * query.limit
    let orders := Order.findPage db.orders filter query.sortBy query.sortOrder skip query.limit
    let total := (db.orders.filter filter.matches).length
    -- Calculate pagination info
    let totalPages := (total + query.limit - 1) / query.limit
    .ok { orders := orders, currentPage := query.page, totalPages := totalPages,
          totalItems := total, itemsPerPage := query.limit,
          hasNextPage := decide (query.page < totalPages),
          hasPrevPage := decide (query.page > 1) }

/-- The handler of `GET /api/orders/:id`. -/
def getOrder (db : Db) (user : AuthUser) (id : ObjectId) : Response Order :=
  match db.orders.find? (singleFilter user id).matches with
  | none => .error ⟨404, "Order not found"⟩
  | some order => .ok order

/-! ## `routes/orders.js`: the creation handler between its `await`s -/

/-- What the creation handler holds once the catalog is read and the cart is
checked: the document `new Order({...})` and the stock updates to write. -/
structure OrderDraft where
  order : Order
  stockUpdates : List StockUpdate
  deriving DecidableEq, Repr

/-- The creation handler from its start to `new Order({...})`: the only
database access is the read `await MenuItem.find(...)`. -/
def createOrderRead (db : Db) (userId : ObjectId) (body : CreateOrderBody) (newId : ObjectId) :
    Response OrderDraft :=
  if ¬ validateCreateOrder body then .error ⟨400, "Validation failed"⟩
  else
    let items := body.items
    let menuItemIds := items.map (fun item => item.menuItem)
    match castObjectIds menuItemIds with
    | none => .error ⟨500, "Server error while creating order"⟩
    | some ids =>
      let menuItems := MenuItem.findIn db.menuItems ids
      if menuItems.length ≠ items.length then
        .error ⟨400, "One or more menu items not found"⟩
      else
        match checkItems menuItems items
            { subtotal := 0, orderItems := [], stockUpdates := [] } with
        | .error failure => .error failure
        | .ok acc =>
          let tax := jsMul acc.subtotal 0.08
          let total := jsAdd acc.subtotal tax
          match mathMax (menuItems.map (fun item => item.prepTime)) with
          | none => .error ⟨500, "Server error while creating order"⟩
          | some maxPrepTime =>
            let estimatedPrepTime := maxPrepTime + 5
            .ok { order := Order.new newId userId acc.orderItems acc.subtotal tax total
                    estimatedPrepTime body.specialInstructions
                  stockUpdates := acc.stockUpdates }

/-- The creation handler from `await order.save()` to the end of the stock
writes, run on the database as it is by then. -/
def createOrderWrite (db : Db) (draft : OrderDraft) (now : Date) : Response Order × Db :=
  match Order.save db.orders draft.order now with
  | none => (.error ⟨500, "Server error while creating order"⟩, db)
  | some saved =>
    (.ok saved.1,
      { menuItems := applyStockUpdates db.menuItems draft.stockUpdates
        orders := saved.2 })

/-! ## `frontend/js/cart.js` -/

/-- An element of `CartManager.cart`: the object `{ ...menuItem, quantity }`. -/
structure CartEntry where
  _id : ObjectId
  name : String
  price : ℚ
  stock : Int
  isAvailable : Bool
  prepTime : Int
  quantity : Int
  deriving DecidableEq, Repr

/-- `MenuManager.getMenuItem` on the menu items the page holds. -/
def getMenuItem (menuItems : List MenuItem) (id : ObjectId) : Option MenuItem :=
  menuItems.find? (fun item => item._id = id)

/-- The object `{ ...menuItem, quantity }`. -/
def CartEntry.ofMenuItem (menuItem : MenuItem) (quantity : Int) : CartEntry :=
  { _id := menuItem._id, name := menuItem.name, price := menuItem.price,
    stock := menuItem.stock, isAvailable := menuItem.isAvailable,
    prepTime := menuItem.prepTime, quantity := quantity }

/-- The assignment `item.quantity = newQuantity` on the entry that
`this.cart.find(item => item._id === itemId)` returned: the first one with
that id. -/
def CartManager.setQuantity (cart : List CartEntry) (itemId : ObjectId) (newQuantity : Int) :
    List CartEntry :=
  match cart with
  | [] => []
  | item :: rest =>
    if item._id = itemId then { item with quantity := newQuantity } :: rest
    else item :: CartManager.setQuantity rest itemId newQuantity

/-- `CartManager.addToCart`, as a function of the menu and the cart. -/
def CartManager.addToCart (menuItems : List MenuItem) (cart : List CartEntry)
    (itemId : ObjectId) (quantity : Int) : List CartEntry :=
  match getMenuItem menuItems itemId with
  | none => cart
  | some menuItem =>
    if menuItem.stock = 0 ∨ ¬ menuItem.isAvailable then cart
    else
      match cart.find? (fun item => item._id = itemId) with
      | some existingItem =>
        let newQuantity := existingItem.quantity + quantity
        if newQuantity > menuItem.stock then cart
        else CartManager.setQuantity cart itemId newQuantity
      | none =>
        if quantity > menuItem.stock then cart
        else cart ++ [CartEntry.ofMenuItem menuItem quantity]

/-- `CartManager.removeFromCart`: `findIndex` and `splice(itemIndex, 1)`. -/
def CartManager.removeFromCart (cart : List CartEntry) (itemId : ObjectId) : List CartEntry :=
  match cart with
  | [] => []
  | item :: rest =>
    if item._id = itemId then rest else item :: CartManager.removeFromCart rest itemId

/-- `CartManager.updateQuantity`. -/
def CartManager.updateQuantity (menuItems : List MenuItem) (cart : List CartEntry)
    (itemId : ObjectId) (newQuantity : Int) : List CartEntry :=
  if newQuantity = 0 then CartManager.removeFromCart cart itemId
  else
    match cart.find? (fun item => item._id = itemId), getMenuItem menuItems itemId with
    | some _, some menuItem =>
      if newQuantity > menuItem.stock then cart
      else CartManager.setQuantity cart itemId newQuantity
    | _, _ => cart

/-- `CartManager.getCartTotal`. -/
def CartManager.getCartTotal (cart : List CartEntry) : ℚ :=
  cart.foldl (fun total item => jsAdd total (jsMul item.price item.quantity)) 0

/-- `CartManager.getTaxAmount`. -/
def CartManager.getTaxAmount (cart : List CartEntry) : ℚ :=
  jsMul (CartManager.getCartTotal cart) 0.08

/-- `CartManager.getFinalTotal`. -/
def CartManager.getFinalTotal (cart : List CartEntry) : ℚ :=
  jsAdd (CartManager.getCartTotal cart) (CartManager.getTaxAmount cart)

/-- The `orderData` that `proceedToCheckout` posts; an id goes out as the
string the API delivered it as. -/
def CartManager.orderData (cart : List CartEntry) : CreateOrderBody :=
  { items := cart.map (fun item => { menuItem := item._id.toString, quantity := item.quantity })
    specialInstructions := some "" }

/-- The cart holds at most one entry per item id, and every entry's quantity
is at least 1 and at most the stock of the menu item of that id. -/
def CartOk (menuItems : List MenuItem) (cart : List CartEntry) : Prop :=
  (cart.map (fun item => item._id)).Nodup ∧
  ∀ item ∈ cart, 1 ≤ item.quantity ∧
    ∃ menuItem, getMenuItem menuItems item._id = some menuItem ∧
      item.quantity ≤ menuItem.stock

/-- A call of one of the three cart methods. -/
inductive CartCall where
  | addToCart (itemId : ObjectId) (quantity : Int)
  | updateQuantity (itemId : ObjectId) (newQuantity : Int)
  | removeFromCart (itemId : ObjectId)
  deriving DecidableEq, Repr

/-- The call has a quantity in range: at least 1 to add, at least 0 to update. -/
def CartCall.inRange : CartCall → Bool
  | .addToCart _ quantity => decide (1 ≤ quantity)
  | .updateQuantity _ newQuantity => decide (0 ≤ newQuantity)
  | .removeFromCart _ => true

/-- The cart after a call. -/
def CartCall.run (menuItems : List MenuItem) (cart : List CartEntry) : CartCall → List CartEntry
  | .addToCart itemId quantity => CartManager.addToCart menuItems cart itemId quantity
  | .updateQuantity itemId newQuantity =>
    CartManager.updateQuantity menuItems cart itemId newQuantity
  | .removeFromCart itemId => CartManager.removeFromCart cart itemId

/-- The cart after a sequence of calls. -/
def CartManager.runAll (menuItems : List MenuItem) (cart : List CartEntry)
    (calls : List CartCall) : List CartEntry :=
  calls.foldl (CartCall.run menuItems) cart

/-! ## Sequences of requests and readings of the database -/

/-- `MenuItem.findById`. -/
def MenuItem.findById (menuItems : List MenuItem) (id : ObjectId) : Option MenuItem :=
  menuItems.find? (fun item => item._id = id)

/-- An order-creation request as the handler receives it. -/
structure CreateOrderRequest where
  userId : ObjectId
  body : CreateOrderBody
  newId : ObjectId
  now : Date
  deriving DecidableEq, Repr

/-- Order-creation requests handled one after another: the responses in order
and the database at the end. -/
def createOrders (db : Db) : List CreateOrderRequest → List (Response Order) × Db
  | [] => ([], db)
  | req :: rest =>
    let step := createOrder db req.userId req.body req.newId req.now
    let later := createOrders step.2 rest
    (step.1 :: later.1, later.2)

/-- The failure a response carries, if it is one. -/
def Response.failure? {α : Type} : Response α → Option Failure
  | .ok _ => none
  | .error failure => some failure

/-- Two creation handlers whose runs overlap: both have read the catalog
before either writes; then the first writes, then the second. -/
def createOrdersOverlapped (db : Db) (first second : CreateOrderRequest) :
    List (Response Order) × Db :=
  let readFirst := createOrderRead db first.userId first.body first.newId
  let readSecond := createOrderRead db second.userId second.body second.newId
  match readFirst, readSecond with
  | .error f1, .error f2 => ([.error f1, .error f2], db)
  | .error f1, .ok d2 =>
    let w2 := createOrderWrite db d2 second.now
    ([.error f1, w2.1], w2.2)
  | .ok d1, .error f2 =>
    let w1 := createOrderWrite db d1 first.now
    ([w1.1, .error f2], w1.2)
  | .ok d1, .ok d2 =>
    let w1 := createOrderWrite db d1 first.now
    let w2 := createOrderWrite w1.2 d2 second.now
    ([w1.1, w2.1], w2.2)

/-- The orders carried by the successful responses. -/
def createdOrders : List (Response Order) → List Order
  | [] => []
  | .ok order :: rest => order :: createdOrders rest
  | .error _ :: rest => createdOrders rest

/-- The quantity of item `id` an order holds, summed over its lines. -/
def Order.quantityOf (order : Order) (id : ObjectId) : Int :=
  ((order.items.filter (fun line => line.menuItem = id)).map (fun line => line.quantity)).sum

/-- A request to one of the state-changing routes. -/
inductive Request where
  | createOrder (userId : ObjectId) (body : CreateOrderBody) (newId : ObjectId)
  | updateOrderStatus (id : ObjectId) (body : StatusUpdateBody) (userId : ObjectId)
  | createPaymentIntent (orderId : ObjectId) (userId : ObjectId)
  | confirmPayment (paymentIntentId : String) (userId : ObjectId)
  | webhook (rawBody : String) (sig : String)
  | updateMenuItem (id : ObjectId) (body : MenuItemUpdate)

/-- The database after the handler of a request has run at time `now`. -/
def handle (stripe : Stripe) (db : Db) (req : Request) (now : Date) : Db :=
  match req with
  | .createOrder userId body newId => (createOrder db userId body newId now).2
  | .updateOrderStatus id body userId => (updateOrderStatus db id body userId now).2
  | .createPaymentIntent orderId userId => (createPaymentIntent stripe db orderId userId).2
  | .confirmPayment paymentIntentId userId =>
    (confirmPayment stripe db paymentIntentId userId now).2
  | .webhook rawBody sig => (webhook stripe db rawBody sig now).2
  | .updateMenuItem id body => (updateMenuItem db id body).2

/-- Requests handled one after another, each at its own time. -/
def handleAll (stripe : Stripe) (db : Db) : List (Request × Date) → Db
  | [] => db
  | (req, now) :: rest => handleAll stripe (handle stripe db req now) rest

/-- One handler run at time `now`, seen on the order collection: nothing is
written, or one stored order is rewritten with its history kept or extended by
one entry stamped `now`. -/
def OrdersStep (before after : List Order) (now : Date) : Prop :=
  after = before ∨
  (∃ o ∈ before, ∃ o' : Order, o'._id = o._id ∧
    (o'.statusHistory = o.statusHistory ∨
      ∃ e : StatusEntry, e.timestamp = now ∧ o'.statusHistory = o.statusHistory ++ [e]) ∧
    after = Order.store before o')

/-- Every history of the collection is in time order and not later than `t`. -/
def HistoriesOrdered (orders : List Order) (t : Date) : Prop :=
  ∀ o ∈ orders, (o.statusHistory.map (fun e => e.timestamp)).Pairwise (fun a b => a ≤ b) ∧
    ∀ e ∈ o.statusHistory, e.timestamp ≤ t

/-- The order number the `pre('save')` hook writes when `count` orders exist. -/
def orderNumberAfter (count : Nat) : String :=
  "FH" ++ padStart (toString (count + 1)) 6 (Char.ofNat 48)

/-- The number a string of decimal digits denotes. -/
def digitsValue (digits : List Char) : Nat :=
  digits.foldl (fun value c => 10 * value + (c.toNat - 48)) 0

/-- A write of `updateStatus` on a stored order `o`, after assignments to other
paths than `_id`, `orderNumber`, `stripePaymentIntentId` and `statusHistory`. -/
def StatusWrite (now : Date) (o o' : Order) : Prop :=
  ∃ (o1 : Order) (newStatus : Status) (updatedBy : Option ObjectId) (notes : Option String),
    o1._id = o._id ∧ o1.orderNumber = o.orderNumber ∧
    o1.stripePaymentIntentId = o.stripePaymentIntentId ∧
    o1.statusHistory = o.statusHistory ∧
    o' = o1.updateStatus newStatus updatedBy notes now

/-- The writes the handler of `req` can make on a stored order `o`: an
`updateStatus`, the payment status `failed`, or, for a payment initiation on an
order that is not paid, a new payment reference. -/
def OrderWrite (req : Request) (now : Date) (o o' : Order) : Prop :=
  StatusWrite now o o' ∨
  o' = { o with paymentStatus := PaymentStatus.failed } ∨
  ((∃ orderId userId, req = Request.createPaymentIntent orderId userId) ∧
    o.paymentStatus ≠ PaymentStatus.paid ∧
    ∃ id : String, o' = { o with stripePaymentIntentId := some id })

/-- One handler run, seen on the order collection: nothing is written, or one
stored order is rewritten by a write `W`. -/
def OrdersChange (W : Order → Order → Prop) (before after : List Order) : Prop :=
  after = before ∨
  (∃ o ∈ before, ∃ o' : Order, W o o' ∧ after = Order.store before o')

/-! ## Sample data -/

/-- A stored order of two units of item 1. -/
def sampleOrder : Order :=
  { _id := 100, orderNumber := some "FH000001", user := 7,
    items := [{ menuItem := 1, name := "itemA", price := 5, quantity := 2, subtotal := 10 }],
    status := .placed, paymentStatus := .pending, paymentMethod := .stripe,
    stripePaymentIntentId := some "pi_1", subtotal := 10, tax := 4 / 5, total := 54 / 5,
    estimatedPrepTime := 15, actualPrepTime := none, specialInstructions := none,
    statusHistory := [{ status := .placed, timestamp := 1000, updatedBy := none, notes := none }],
    pickupTime := none, completedAt := none, cancelledAt := none, cancellationReason := none }

/-- A database that holds `sampleOrder`, with item 1 out of stock. -/
def sampleDb : Db :=
  { menuItems := [{ _id := 1, name := "itemA", price := 5, stock := 0, isAvailable := false,
                    prepTime := 10 }],
    orders := [sampleOrder] }

/-- The database in which `sampleOrder` has been cancelled by staff. -/
def cancelledDb : Db :=
  { sampleDb with
    orders := [{ sampleOrder with
      status := .cancelled, cancelledAt := some 2000,
      statusHistory := sampleOrder.statusHistory ++
        [{ status := .cancelled, timestamp := 2000, updatedBy := some 9, notes := some "" }] }] }

/-- A catalog of a burger at 8.99 (five in stock) and a juice at 3.99 (one in
stock), with no order yet. -/
def burgerDb : Db :=
  { menuItems :=
      [{ _id := 1, name := "burger", price := 8.99, stock := 5, isAvailable := true,
         prepTime := 10 },
       { _id := 2, name := "juice", price := 3.99, stock := 1, isAvailable := true,
         prepTime := 2 }],
    orders := [] }

/-- The cart of two burgers and one juice. -/
def burgerCart : CreateOrderBody :=
  { items := [{ menuItem := "000000000000000000000001", quantity := 2 },
              { menuItem := "000000000000000000000002", quantity := 1 }],
    specialInstructions := none }

/-- The document `new Order({...})` for the given instructions, and the stock
updates, that the creation handler holds for a cart of two burgers and one
juice on `burgerDb` when it reaches `order.save()`. -/
def burgerDraftWith (specialInstructions : Option String) : OrderDraft :=
  { order :=
      { _id := 100, orderNumber := none, user := 7,
        items := [{ menuItem := 1, name := "burger", price := 8.99, quantity := 2,
                    subtotal := toDouble 17.98 },
                  { menuItem := 2, name := "juice", price := 3.99, quantity := 1,
                    subtotal := toDouble 3.99 }],
        status := .placed, paymentStatus := .pending, paymentMethod := .stripe,
        stripePaymentIntentId := none, subtotal := toDouble 21.97, tax := toDouble 1.7576,
        total := toDouble 23.7276, estimatedPrepTime := 15, actualPrepTime := none,
        specialInstructions := specialInstructions, statusHistory := [],
        pickupTime := none, completedAt := none, cancelledAt := none,
        cancellationReason := none },
    stockUpdates := [{ id := 1, newStock := 3 }, { id := 2, newStock := 0 }] }

/-- The draft for `burgerCart`, which has no instructions. -/
def burgerDraft : OrderDraft := burgerDraftWith none

/-- A stored order of two burgers and one juice. -/
def burgerOrder : Order :=
  { _id := 100, orderNumber := some "FH000001", user := 7,
    items := [{ menuItem := 1, name := "burger", price := 8.99, quantity := 2, subtotal := 17.98 },
              { menuItem := 2, name := "juice", price := 3.99, quantity := 1, subtotal := 3.99 }],
    status := .placed, paymentStatus := .pending, paymentMethod := .stripe,
    stripePaymentIntentId := none, subtotal := 21.97, tax := 1.7576, total := 23.7276,
    estimatedPrepTime := 15, actualPrepTime := none, specialInstructions := none,
    statusHistory := [{ status := .placed, timestamp := 1000, updatedBy := none, notes := none }],
    pickupTime := none, completedAt := none, cancelledAt := none, cancellationReason := none }

/-- A database that holds `burgerOrder`, its units gone from the stock. -/
def burgerDbAfter : Db :=
  { menuItems :=
      [{ _id := 1, name := "burger", price := 8.99, stock := 3, isAvailable := true,
         prepTime := 10 },
       { _id := 2, name := "juice", price := 3.99, stock := 0, isAvailable := false,
         prepTime := 2 }],
    orders := [burgerOrder] }

/-- Two requests, each for the one juice in stock, then one for a burger. -/
def juiceRequests : List CreateOrderRequest :=
  [{ userId := 7, body := { items := [{ menuItem := "000000000000000000000002", quantity := 1 }],
                            specialInstructions := none }, newId := 100, now := 1000 },
   { userId := 8, body := { items := [{ menuItem := "000000000000000000000002", quantity := 1 }],
                            specialInstructions := none }, newId := 101, now := 1001 },
   { userId := 8, body := { items := [{ menuItem := "000000000000000000000001", quantity := 1 }],
                            specialInstructions := none }, newId := 102, now := 1002 }]

/-- A Stripe client whose webhook verification accepts the signature "valid"
only, and then reads the body as the event type for intent "pi_1". -/
def signingStripe : Stripe :=
  { create := fun _ _ => some (PaymentIntent.mk "pi_1" "requires_payment_method" "secret"),
    retrieve := fun id => some (PaymentIntent.mk id "succeeded" "secret"),
    constructEvent := fun rawBody sig =>
      if sig = "valid" then some (StripeEvent.mk rawBody (PaymentIntent.mk "pi_1" "succeeded" "secret"))
      else none }

/-- A day of requests: a creation is attempted, the payment of order 100 is
initiated and confirmed twice, staff move the order on, and a forged webhook
arrives. -/
def busyDay : List (Request × Date) :=
  [(Request.createOrder 7 burgerCart 100, 1000),
   (Request.createPaymentIntent 100 7, 1500),
   (Request.confirmPayment "pi_1" 7, 2000),
   (Request.webhook "payment_intent.succeeded" "valid", 2000),
   (Request.confirmPayment "pi_1" 7, 2500),
   (Request.updateOrderStatus 100 ⟨"preparing", none, none⟩ 9, 3000),
   (Request.webhook "payment_intent.payment_failed" "forged", 3500)]

/-- A Stripe client that issues the reference "pi_2" for a new payment intent. -/
def retryStripe : Stripe :=
  { create := fun _ _ => some (PaymentIntent.mk "pi_2" "requires_payment_method" "secret"),
    retrieve := fun id => some (PaymentIntent.mk id "succeeded" "secret"),
    constructEvent := fun _ _ => none }

/-- A Stripe client that issues the amount it is given as the reference. -/
def echoStripe : Stripe :=
  { create := fun amount _ => some (PaymentIntent.mk (toString amount) "requires_payment_method" "secret"),
    retrieve := fun _ => none,
    constructEvent := fun _ _ => none }

/-- The request for the one juice in stock, by user 7 and by user 8. -/
def juiceCart : CreateOrderBody :=
  { items := [{ menuItem := "000000000000000000000002", quantity := 1 }],
    specialInstructions := none }

/-- A catalog whose one item has an id with letters among its digits. -/
def saladDb : Db :=
  { menuItems := [{ _id := 0x64b0f1a2c3d4e5f601234567, name := "salad", price := 6.5, stock := 4,
                    isAvailable := true, prepTime := 5 }],
    orders := [] }

/-- A cart of one salad, its id written in lower case as the API delivers it. -/
def saladCart : CreateOrderBody :=
  { items := [{ menuItem := "64b0f1a2c3d4e5f601234567", quantity := 1 }],
    specialInstructions := none }

/-- The same cart with the id written in upper case. -/
def saladCartUpper : CreateOrderBody :=
  { items := [{ menuItem := "64B0F1A2C3D4E5F601234567", quantity := 1 }],
    specialInstructions := none }

/-- The cart page's copy of `burgerCart`: two burgers and one juice. -/
def burgerEntries : List CartEntry :=
  [{ _id := 1, name := "burger", price := 8.99, stock := 5, isAvailable := true, prepTime := 10,
     quantity := 2 },
   { _id := 2, name := "juice", price := 3.99, stock := 1, isAvailable := true, prepTime := 2,
     quantity := 1 }]

/-- Calls that build `burgerEntries` from the empty cart, with some refused. -/
def burgerCalls : List CartCall :=
  [CartCall.addToCart 1 1, CartCall.addToCart 2 2, CartCall.addToCart 2 1,
   CartCall.addToCart 3 1, CartCall.updateQuantity 1 9, CartCall.addToCart 1 1,
   CartCall.addToCart 2 1]

/-- A payment intent as Stripe reports it. -/
def intentWith (id : String) (status : String) : PaymentIntent :=
  { id := id, status := status, clientSecret := "secret" }

/-- A Stripe client for which every payment intent has succeeded. -/
def paidStripe : Stripe :=
  { create := fun _ _ => some (intentWith "pi_1" "requires_payment_method"),
    retrieve := fun id => some (intentWith id "succeeded"),
    constructEvent := fun _ _ => none }

/-! ## JavaScript numbers: rounding to a double -/

theorem log_eq_of_bounds (r : ℚ) (k : Int) (h1 : (2 : ℚ) ^ k ≤ r) (h2 : r < (2 : ℚ) ^ (k + 1)) :
    Int.log 2 r = k := by
  have hr : 0 < r := lt_of_lt_of_le (by positivity) h1
  have hle : k ≤ Int.log 2 r := (Int.zpow_le_iff_le_log (by norm_num) hr).mp (by exact_mod_cast h1)
  have hlt : Int.log 2 r < k + 1 := (Int.lt_zpow_iff_log_lt (by norm_num) hr).mp (by exact_mod_cast h2)
  omega

theorem roundHalfEven_eq (x : ℚ) (m : Int) (h1 : (m : ℚ) - 1 / 2 ≤ x) (h2 : x ≤ m + 1 / 2)
    (h3 : x = m - 1 / 2 ∨ x = m + 1 / 2 → m % 2 = 0) : roundHalfEven x = m := by
  unfold roundHalfEven
  simp only
  by_cases hm : (m : ℚ) ≤ x
  · have hf : ⌊x⌋ = m := by
      rw [Int.floor_eq_iff]
      constructor
      · exact hm
      · linarith
    rw [hf]
    rcases lt_or_eq_of_le h2 with hlt | heq
    · rw [if_pos (by linarith)]
    · rw [if_neg (by linarith), if_neg (by linarith), if_pos (h3 (Or.inr heq))]
  · have hf : ⌊x⌋ = m - 1 := by
      rw [Int.floor_eq_iff]
      push_cast
      constructor <;> linarith
    rw [hf]
    push_cast
    rcases lt_or_eq_of_le h1 with hlt | heq
    · rw [if_neg (by linarith), if_pos (by linarith)]
      ring
    · have heven := h3 (Or.inl heq.symm)
      rw [if_neg (by linarith), if_neg (by linarith), if_neg (by omega)]
      ring

theorem roundHalfEven_near (x : ℚ) : |(roundHalfEven x : ℚ) - x| ≤ 1 / 2 := by
  have h1 : ((⌊x⌋ : Int) : ℚ) ≤ x := Int.floor_le x
  have h2 : x < ((⌊x⌋ : Int) : ℚ) + 1 := Int.lt_floor_add_one x
  unfold roundHalfEven
  simp only
  rw [abs_le]
  split_ifs with ha hb hc
  · constructor <;> linarith
  · push_cast; constructor <;> linarith
  · constructor <;> linarith
  · push_cast; constructor <;> linarith

theorem toDouble_eq (x : ℚ) (e m : Int) (he : -1074 ≤ e)
    (h1 : (2 : ℚ) ^ (e + 52) ≤ |x|) (h2 : |x| < (2 : ℚ) ^ (e + 53))
    (h3 : (m : ℚ) - 1 / 2 ≤ x / 2 ^ e) (h4 : x / 2 ^ e ≤ m + 1 / 2)
    (h5 : x / 2 ^ e = m - 1 / 2 ∨ x / 2 ^ e = m + 1 / 2 → m % 2 = 0) :
    toDouble x = m * 2 ^ e := by
  have hlog : Int.log 2 |x| = e + 52 := log_eq_of_bounds _ _ h1 (by
    have : e + 52 + 1 = e + 53 := by ring
    rw [this]; exact h2)
  have hulp : ulpExponent x = e := by
    unfold ulpExponent
    rw [hlog]
    have : e + 52 - 52 = e := by ring
    rw [this]
    exact max_eq_left he
  unfold toDouble
  rw [hulp, roundHalfEven_eq _ m h3 h4 h5]

theorem toDouble_zero : toDouble 0 = 0 := by
  simp [toDouble, roundHalfEven]

/-- The binade bound behind `ulpExponent`. -/
theorem abs_lt_zpow_ulp (x : ℚ) : |x| < (2 : ℚ) ^ (ulpExponent x + 53) := by
  by_cases hx : x = 0
  · subst hx
    simp only [abs_zero]
    positivity
  · have hpos : 0 < |x| := abs_pos.mpr hx
    have h := Int.lt_zpow_succ_log_self (b := 2) (by norm_num) |x|
    have hle : Int.log 2 |x| + 1 ≤ ulpExponent x + 53 := by
      unfold ulpExponent
      have := le_max_left (Int.log 2 |x| - 52) (-1074)
      omega
    calc |x| < ((2 : ℕ) : ℚ) ^ (Int.log 2 |x| + 1) := h
      _ = (2 : ℚ) ^ (Int.log 2 |x| + 1) := by norm_num
      _ ≤ (2 : ℚ) ^ (ulpExponent x + 53) := zpow_le_zpow_right₀ (by norm_num) hle

theorem toDouble_error (x : ℚ) : |toDouble x - x| ≤ 2 ^ ulpExponent x / 2 := by
  have hpos : (0 : ℚ) < 2 ^ ulpExponent x := by positivity
  have h := roundHalfEven_near (x / 2 ^ ulpExponent x)
  unfold toDouble
  have heq : (roundHalfEven (x / 2 ^ ulpExponent x) : ℚ) * 2 ^ ulpExponent x - x
      = ((roundHalfEven (x / 2 ^ ulpExponent x) : ℚ) - x / 2 ^ ulpExponent x)
        * 2 ^ ulpExponent x := by
    field_simp
  rw [heq, abs_mul, abs_of_pos hpos]
  calc |(roundHalfEven (x / 2 ^ ulpExponent x) : ℚ) - x / 2 ^ ulpExponent x| * 2 ^ ulpExponent x
      ≤ 1 / 2 * 2 ^ ulpExponent x := mul_le_mul_of_nonneg_right h (le_of_lt hpos)
    _ = 2 ^ ulpExponent x / 2 := by ring

theorem toDouble_near (x : ℚ) : |toDouble x - x| ≤ |x| / 2 ^ 53 + 1 / 2 ^ 1075 := by
  by_cases hx : x = 0
  · subst hx
    rw [toDouble_zero]
    norm_num
  have herr := toDouble_error x
  have hbound : (2 : ℚ) ^ ulpExponent x / 2 ≤ |x| / 2 ^ 53 + 1 / 2 ^ 1075 := by
    unfold ulpExponent
    rcases le_total (Int.log 2 |x| - 52) (-1074) with hle | hle
    · rw [max_eq_right hle]
      have h0 : (0 : ℚ) ≤ |x| / 2 ^ 53 := by positivity
      have : (2 : ℚ) ^ (-1074 : Int) / 2 = 1 / 2 ^ 1075 := by
        rw [zpow_neg]; norm_num
      rw [this]
      linarith
    · rw [max_eq_left hle]
      have hpos : 0 < |x| := abs_pos.mpr hx
      have hlow := Int.zpow_log_le_self (b := 2) (by norm_num) hpos
      have hlow' : (2 : ℚ) ^ Int.log 2 |x| ≤ |x| := by exact_mod_cast hlow
      have hsplit : (2 : ℚ) ^ (Int.log 2 |x| - 52) / 2 = (2 : ℚ) ^ Int.log 2 |x| / 2 ^ 53 := by
        rw [zpow_sub₀ (by norm_num)]
        norm_num
        ring
      rw [hsplit]
      have h1 : (2 : ℚ) ^ Int.log 2 |x| / 2 ^ 53 ≤ |x| / 2 ^ 53 :=
        div_le_div_of_nonneg_right hlow' (by positivity)
      have h2 : (0 : ℚ) ≤ 1 / 2 ^ 1075 := by positivity
      linarith
  exact le_trans herr hbound


theorem roundHalfEven_intCast (k : Int) : roundHalfEven (k : ℚ) = k :=
  roundHalfEven_eq _ k (by linarith) (by linarith) (fun h => by
    rcases h with h | h <;> linarith)

/-- A number with a significand below 2^53 in absolute value and an exponent
of at least -1074 is a double. -/
theorem toDouble_dyadic (m e : Int) (hm : |m| < 2 ^ 53) (he : -1074 ≤ e) :
    toDouble ((m : ℚ) * 2 ^ e) = (m : ℚ) * 2 ^ e := by
  by_cases hm0 : m = 0
  · subst hm0
    simp [toDouble_zero]
  have hmq : |(m : ℚ)| < 2 ^ 53 := by exact_mod_cast hm
  have hxpos : 0 < |(m : ℚ) * 2 ^ e| := by
    rw [abs_pos]
    exact mul_ne_zero (by exact_mod_cast hm0) (by positivity)
  have hlt : |(m : ℚ) * 2 ^ e| < (2 : ℚ) ^ (e + 53) := by
    rw [abs_mul, abs_of_pos (by positivity : (0 : ℚ) < 2 ^ e), zpow_add₀ (by norm_num), mul_comm]
    exact mul_lt_mul_of_pos_left (by exact_mod_cast hmq) (by positivity)
  have hlog : Int.log 2 |(m : ℚ) * 2 ^ e| < e + 53 :=
    (Int.lt_zpow_iff_log_lt (by norm_num) hxpos).mp (by exact_mod_cast hlt)
  have hu : ulpExponent ((m : ℚ) * 2 ^ e) ≤ e := by
    unfold ulpExponent
    exact max_le (by omega) he
  obtain ⟨n, hn⟩ := Int.eq_ofNat_of_zero_le (sub_nonneg.mpr hu)
  have he' : e = ulpExponent ((m : ℚ) * 2 ^ e) + n := by omega
  have hpow : (2 : ℚ) ^ e = 2 ^ ulpExponent ((m : ℚ) * 2 ^ e) * 2 ^ n := by
    conv_lhs => rw [he']
    rw [zpow_add₀ (by norm_num), zpow_natCast]
  have hquot : (m : ℚ) * 2 ^ e / 2 ^ ulpExponent ((m : ℚ) * 2 ^ e) = ((m * 2 ^ n : Int) : ℚ) := by
    have hne : (2 : ℚ) ^ ulpExponent ((m : ℚ) * 2 ^ e) ≠ 0 := by positivity
    rw [div_eq_iff hne]
    conv_lhs => rw [hpow]
    push_cast
    ring
  unfold toDouble
  rw [hquot, roundHalfEven_intCast]
  conv_rhs => rw [hpow]
  push_cast
  ring

theorem toDouble_idem (x : ℚ) : toDouble (toDouble x) = toDouble x := by
  have hu : -1074 ≤ ulpExponent x := le_max_right _ _
  have hpos : (0 : ℚ) < 2 ^ ulpExponent x := by positivity
  have hlt : |x / 2 ^ ulpExponent x| < 2 ^ 53 := by
    rw [abs_div, abs_of_pos hpos, div_lt_iff₀ hpos]
    have := abs_lt_zpow_ulp x
    rw [zpow_add₀ (by norm_num)] at this
    have h53 : (2 : ℚ) ^ (53 : Int) = 2 ^ 53 := by norm_num
    rw [h53, mul_comm] at this
    exact this
  have hnear := roundHalfEven_near (x / 2 ^ ulpExponent x)
  have hm : |(roundHalfEven (x / 2 ^ ulpExponent x) : ℚ)| < 2 ^ 53 + 1 := by
    have h1 := abs_sub_abs_le_abs_sub ((roundHalfEven (x / 2 ^ ulpExponent x) : ℚ))
      (x / 2 ^ ulpExponent x)
    linarith
  have hmi : |roundHalfEven (x / 2 ^ ulpExponent x)| ≤ 2 ^ 53 := by
    have : |roundHalfEven (x / 2 ^ ulpExponent x)| < 2 ^ 53 + 1 := by exact_mod_cast hm
    omega
  unfold toDouble
  rcases lt_or_eq_of_le hmi with hlt' | heq
  · exact toDouble_dyadic _ _ hlt' hu
  · have hcases : roundHalfEven (x / 2 ^ ulpExponent x) = 2 ^ 53 ∨
        roundHalfEven (x / 2 ^ ulpExponent x) = -(2 ^ 53) := by
      rcases abs_cases (roundHalfEven (x / 2 ^ ulpExponent x)) with ⟨h, _⟩ | ⟨h, _⟩ <;> omega
    have hshift : ∀ s : Int, |s| = 1 →
        ((s * 2 ^ 53 : Int) : ℚ) * 2 ^ ulpExponent x
          = ((s * 2 ^ 52 : Int) : ℚ) * 2 ^ (ulpExponent x + 1) := by
      intro s _
      rw [zpow_add₀ (by norm_num)]
      push_cast
      ring
    rcases hcases with h | h
    · rw [h]
      have := hshift 1 (by norm_num)
      simp only [one_mul] at this
      rw [this]
      exact toDouble_dyadic _ _ (by norm_num) (by omega)
    · rw [h]
      have := hshift (-1) (by norm_num)
      simp only [neg_one_mul] at this
      rw [this]
      exact toDouble_dyadic _ _ (by norm_num) (by omega)

/-! ## The doubles of the sample prices and totals -/

theorem toDouble_1 : toDouble 1 = 1 := by
  rw [toDouble_eq 1 (-52) 4503599627370496 (by norm_num) (by norm_num [abs_of_pos])
    (by norm_num [abs_of_pos]) (by norm_num) (by norm_num) (by norm_num)]
  norm_num

theorem toDouble_2 : toDouble 2 = 2 := by
  rw [toDouble_eq 2 (-51) 4503599627370496 (by norm_num) (by norm_num [abs_of_pos])
    (by norm_num [abs_of_pos]) (by norm_num) (by norm_num) (by norm_num)]
  norm_num

theorem toDouble_100 : toDouble 100 = 100 := by
  rw [toDouble_eq 100 (-46) 7036874417766400 (by norm_num) (by norm_num [abs_of_pos])
    (by norm_num [abs_of_pos]) (by norm_num) (by norm_num) (by norm_num)]
  norm_num

theorem toDouble_0_08 : toDouble 0.08 = 5764607523034235 / 72057594037927936 := by
  rw [toDouble_eq 0.08 (-56) 5764607523034235 (by norm_num) (by norm_num [abs_of_pos])
    (by norm_num [abs_of_pos]) (by norm_num) (by norm_num) (by norm_num)]
  norm_num

theorem toDouble_8_99 : toDouble 8.99 = 5060920081257595 / 562949953421312 := by
  rw [toDouble_eq 8.99 (-49) 5060920081257595 (by norm_num) (by norm_num [abs_of_pos])
    (by norm_num [abs_of_pos]) (by norm_num) (by norm_num) (by norm_num)]
  norm_num

theorem toDouble_3_99 : toDouble 3.99 = 2246170314151035 / 562949953421312 := by
  rw [toDouble_eq 3.99 (-51) 8984681256604140 (by norm_num) (by norm_num [abs_of_pos])
    (by norm_num [abs_of_pos]) (by norm_num) (by norm_num) (by norm_num)]
  norm_num

theorem toDouble_17_98 : toDouble 17.98 = 5060920081257595 / 281474976710656 := by
  rw [toDouble_eq 17.98 (-48) 5060920081257595 (by norm_num) (by norm_num [abs_of_pos])
    (by norm_num [abs_of_pos]) (by norm_num) (by norm_num) (by norm_num)]
  norm_num

theorem toDouble_21_97 : toDouble 21.97 = 773000654791639 / 35184372088832 := by
  rw [toDouble_eq 21.97 (-48) 6184005238333112 (by norm_num) (by norm_num [abs_of_pos])
    (by norm_num [abs_of_pos]) (by norm_num) (by norm_num) (by norm_num)]
  norm_num

theorem toDouble_1_7576 : toDouble 1.7576 = 494720419066649 / 281474976710656 := by
  rw [toDouble_eq 1.7576 (-52) 7915526705066384 (by norm_num) (by norm_num [abs_of_pos])
    (by norm_num [abs_of_pos]) (by norm_num) (by norm_num) (by norm_num)]
  norm_num

theorem toDouble_23_7276 : toDouble 23.7276 = 6678725657399761 / 281474976710656 := by
  rw [toDouble_eq 23.7276 (-48) 6678725657399761 (by norm_num) (by norm_num [abs_of_pos])
    (by norm_num [abs_of_pos]) (by norm_num) (by norm_num) (by norm_num)]
  norm_num

theorem toDouble_1_76 : toDouble 1.76 = 7926335344172073 / 4503599627370496 := by
  rw [toDouble_eq 1.76 (-52) 7926335344172073 (by norm_num) (by norm_num [abs_of_pos])
    (by norm_num [abs_of_pos]) (by norm_num) (by norm_num) (by norm_num)]
  norm_num

theorem toDouble_23_73 : toDouble 23.73 = 6679401197343867 / 281474976710656 := by
  rw [toDouble_eq 23.73 (-48) 6679401197343867 (by norm_num) (by norm_num [abs_of_pos])
    (by norm_num [abs_of_pos]) (by norm_num) (by norm_num) (by norm_num)]
  norm_num

theorem toDouble_4_185 : toDouble 4.185 = 4711891110136381 / 1125899906842624 := by
  rw [toDouble_eq 4.185 (-50) 4711891110136381 (by norm_num) (by norm_num [abs_of_pos])
    (by norm_num [abs_of_pos]) (by norm_num) (by norm_num) (by norm_num)]
  norm_num

/-- `8.99 * 2` is the double written 17.98. -/
theorem jsMul_8_99_two : jsMul 8.99 ((2 : Int) : ℚ) = toDouble 17.98 := by
  simp only [jsMul, Int.cast_ofNat]
  rw [toDouble_8_99, toDouble_2, toDouble_17_98]
  rw [toDouble_eq ((5060920081257595 / 562949953421312) * 2) (-48) 5060920081257595 (by norm_num) (by norm_num [abs_of_pos])
    (by norm_num [abs_of_pos]) (by norm_num) (by norm_num) (by norm_num)]
  norm_num

/-- `3.99 * 1` is the double written 3.99. -/
theorem jsMul_3_99_one : jsMul 3.99 ((1 : Int) : ℚ) = toDouble 3.99 := by
  simp only [jsMul, Int.cast_one, toDouble_1, mul_one, toDouble_idem]

/-- `0 + 17.98 + 3.99` is the double written 21.97. -/
theorem jsAdd_17_98_3_99 : jsAdd (jsAdd 0 (toDouble 17.98)) (toDouble 3.99) = toDouble 21.97 := by
  simp only [jsAdd, toDouble_zero, zero_add, toDouble_idem]
  rw [toDouble_17_98, toDouble_3_99, toDouble_21_97]
  rw [toDouble_eq ((5060920081257595 / 281474976710656) + (2246170314151035 / 562949953421312)) (-48) 6184005238333112 (by norm_num) (by norm_num [abs_of_pos])
    (by norm_num [abs_of_pos]) (by norm_num) (by norm_num) (by norm_num)]
  norm_num

/-- `21.97 * 0.08` is the double written 1.7576. -/
theorem jsMul_21_97_tax : jsMul (toDouble 21.97) 0.08 = toDouble 1.7576 := by
  simp only [jsMul, toDouble_idem]
  rw [toDouble_21_97, toDouble_0_08, toDouble_1_7576]
  rw [toDouble_eq ((773000654791639 / 35184372088832) * (5764607523034235 / 72057594037927936)) (-52) 7915526705066384 (by norm_num) (by norm_num [abs_of_pos])
    (by norm_num [abs_of_pos]) (by norm_num) (by norm_num) (by norm_num)]
  norm_num

/-- `21.97 + 1.7576` is the double written 23.7276. -/
theorem jsAdd_21_97_tax : jsAdd (toDouble 21.97) (toDouble 1.7576) = toDouble 23.7276 := by
  simp only [jsAdd, toDouble_idem]
  rw [toDouble_21_97, toDouble_1_7576, toDouble_23_7276]
  rw [toDouble_eq ((773000654791639 / 35184372088832) + (494720419066649 / 281474976710656)) (-48) 6678725657399761 (by norm_num) (by norm_num [abs_of_pos])
    (by norm_num [abs_of_pos]) (by norm_num) (by norm_num) (by norm_num)]
  norm_num

/-- `23.7276 * 100` is the double just below 2372.76. -/
theorem toDouble_23_7276_cents : toDouble (6678725657399761 / 281474976710656 * 100) = 5217754419843563 / 2199023255552 := by
  rw [toDouble_eq ((6678725657399761 / 281474976710656) * 100) (-41) 5217754419843563 (by norm_num) (by norm_num [abs_of_pos])
    (by norm_num [abs_of_pos]) (by norm_num) (by norm_num) (by norm_num)]
  norm_num

/-- `4.185 * 100` is the double just below 418.5. -/
theorem toDouble_4_185_cents : toDouble (4711891110136381 / 1125899906842624 * 100) = 7362329859588095 / 17592186044416 := by
  rw [toDouble_eq ((4711891110136381 / 1125899906842624) * 100) (-44) 7362329859588095 (by norm_num) (by norm_num [abs_of_pos])
    (by norm_num [abs_of_pos]) (by norm_num) (by norm_num) (by norm_num)]
  norm_num

/-! ## Status route -/

theorem updateOrderStatus_menuItems (db : Db) (id : ObjectId) (body : StatusUpdateBody)
    (userId : ObjectId) (now : Date) :
    (updateOrderStatus db id body userId now).2.menuItems = db.menuItems := by
  unfold updateOrderStatus
  split
  · rfl
  · split
    · rfl
    · split <;> rfl

/-- C1: a status update whose requested status is not an allowed successor of
the order's current status (by the transition table) is answered with an error
400 and leaves the database, hence the order, as it was. -/
theorem updateOrderStatus_rejects_illegal (db : Db) (id : ObjectId) (body : StatusUpdateBody)
    (userId : ObjectId) (now : Date) (order : Order)
    (hfind : Order.findById db.orders id = some order)
    (hbad : ∀ s, Status.ofString? body.status = some s →
      (order.status, s) ∉
        [(Status.placed, Status.confirmed), (Status.placed, Status.cancelled),
         (Status.confirmed, Status.preparing), (Status.confirmed, Status.cancelled),
         (Status.preparing, Status.ready), (Status.preparing, Status.cancelled),
         (Status.ready, Status.completed)]) :
    (∃ f, (updateOrderStatus db id body userId now).1 = Response.error f ∧ f.status = 400) ∧
      (updateOrderStatus db id body userId now).2 = db ∧
      Order.findById (updateOrderStatus db id body userId now).2.orders id = some order := by
  unfold updateOrderStatus
  cases hv : validateStatusUpdate body with
  | none => exact ⟨⟨_, rfl, rfl⟩, rfl, hfind⟩
  | some status =>
    have hs : Status.ofString? body.status = some status := by
      unfold validateStatusUpdate at hv
      cases hp : Status.ofString? body.status with
      | none => simp [hp] at hv
      | some s =>
        simp only [hp] at hv
        split at hv
        · exact congrArg some (Option.some.inj hv)
        · exact absurd hv (by simp)
    have hnot : (validTransitions order.status).contains status = false := by
      have h := hbad status hs
      revert h
      cases order.status <;> cases status <;> simp [validTransitions]
    simp only [hfind, hnot]
    exact ⟨⟨_, rfl, rfl⟩, rfl, hfind⟩

theorem updateOrderStatus_rejects_illegal_witness :
    (∃ f, (updateOrderStatus sampleDb 100 ⟨"ready", none, none⟩ 9 2000).1 = Response.error f ∧
        f.status = 400) ∧
      (updateOrderStatus sampleDb 100 ⟨"ready", none, none⟩ 9 2000).2 = sampleDb ∧
      Order.findById (updateOrderStatus sampleDb 100 ⟨"ready", none, none⟩ 9 2000).2.orders 100
        = some sampleOrder :=
  updateOrderStatus_rejects_illegal sampleDb 100 ⟨"ready", none, none⟩ 9 2000 sampleOrder
    rfl (by decide)

/-- C10 (as the code has it): a successful status update to `cancelled` marks
the order cancelled at the current time and leaves every menu item, its stock
and availability flag included, as it was: no quantity returns to stock. -/
theorem cancel_leaves_stock (db db' : Db) (id : ObjectId) (body : StatusUpdateBody)
    (userId : ObjectId) (now : Date) (order' : Order)
    (hcancel : body.status = "cancelled")
    (hok : updateOrderStatus db id body userId now = (Response.ok order', db')) :
    order'.status = Status.cancelled ∧ order'.cancelledAt = some now ∧
      db'.menuItems = db.menuItems := by
  have hmenu := updateOrderStatus_menuItems db id body userId now
  rw [hok] at hmenu
  refine ⟨?_, ?_, hmenu⟩ <;>
  · unfold updateOrderStatus at hok
    cases hv : validateStatusUpdate body with
    | none => simp [hv] at hok
    | some status =>
      have hs : status = Status.cancelled := by
        unfold validateStatusUpdate at hv
        have hp : Status.ofString? body.status = some Status.cancelled := by
          rw [hcancel]; decide
        simp only [hp] at hv
        split at hv
        · exact (Option.some.inj hv).symm
        · exact absurd hv (by simp)
      subst hs
      simp only [hv] at hok
      cases hf : Order.findById db.orders id with
      | none => simp [hf] at hok
      | some order =>
        simp only [hf] at hok
        split at hok
        · simp at hok
        · have h1 := (Prod.mk.inj hok).1
          injection h1 with h1
          rw [← h1]
          simp [Order.updateStatus]

theorem cancel_leaves_stock_witness :
    cancelledDb.orders.map (fun o => o.status) = [Status.cancelled] ∧
      cancelledDb.orders.map (fun o => o.cancelledAt) = [some 2000] ∧
      cancelledDb.menuItems = sampleDb.menuItems := by
  have h := cancel_leaves_stock sampleDb cancelledDb 100 ⟨"cancelled", none, none⟩ 9 2000
    (cancelledDb.orders.headD sampleOrder) rfl rfl
  exact ⟨by decide, by decide, h.2.2⟩

/-- C10, counterexample: item 1 has stock 0 and is unavailable, the order holds
two units of it; the cancellation succeeds and item 1 still has stock 0, not 2,
and is still unavailable. -/
theorem cancel_releases_stock_counterexample :
    sampleOrder.items.map (fun line => (line.menuItem, line.quantity)) = [(1, 2)] ∧
      sampleDb.menuItems.map (fun item => (item._id, item.stock, item.isAvailable))
        = [(1, 0, false)] ∧
      (updateOrderStatus sampleDb 100 ⟨"cancelled", none, none⟩ 9 2000).1.isOk = true ∧
      (updateOrderStatus sampleDb 100 ⟨"cancelled", none, none⟩ 9 2000).2.orders.map
        (fun o => o.status) = [Status.cancelled] ∧
      (updateOrderStatus sampleDb 100 ⟨"cancelled", none, none⟩ 9 2000).2.menuItems.map
        (fun item => (item._id, item.stock, item.isAvailable)) = [(1, 0, false)] ∧
      ¬ ((updateOrderStatus sampleDb 100 ⟨"cancelled", none, none⟩ 9 2000).2.menuItems.map
        (fun item => (item._id, item.stock, item.isAvailable)) = [(1, 0 + 2, true)]) := by
  decide

/-! ## Payment routes -/

/-- C2, the code at the failing input: the order was cancelled by staff; the
direct confirmation of its payment, and likewise the webhook success event,
set its status to `confirmed`. -/
theorem confirmPayment_revives_cancelled :
    (updateOrderStatus sampleDb 100 ⟨"cancelled", none, none⟩ 9 2000).2 = cancelledDb ∧
      cancelledDb.orders.map (fun o => o.status) = [Status.cancelled] ∧
      (confirmPayment paidStripe cancelledDb "pi_1" 7 3000).2.orders.map (fun o => o.status)
        = [Status.confirmed] ∧
      (handlePaymentSuccess cancelledDb (intentWith "pi_1" "succeeded") 3000).orders.map
        (fun o => o.status) = [Status.confirmed] := by
  refine ⟨rfl, ?_, ?_, ?_⟩ <;> decide

/-- C3, the code at the failing input: two direct confirmations of the same
payment reference, and a webhook success followed by a direct confirmation,
each append two `confirmed` entries to the status history. -/
theorem confirmPayment_twice_appends_twice :
    ((confirmPayment paidStripe sampleDb "pi_1" 7 2000).2.orders.map
        (fun o => (o.paymentStatus, o.statusHistory.map (fun e => e.status)))
        = [(PaymentStatus.paid, [Status.placed, Status.confirmed])]) ∧
      ((confirmPayment paidStripe (confirmPayment paidStripe sampleDb "pi_1" 7 2000).2
          "pi_1" 7 3000).2.orders.map
        (fun o => (o.paymentStatus, o.statusHistory.map (fun e => e.status)))
        = [(PaymentStatus.paid, [Status.placed, Status.confirmed, Status.confirmed])]) ∧
      ((confirmPayment paidStripe
          (handlePaymentSuccess sampleDb (intentWith "pi_1" "succeeded") 2000)
          "pi_1" 7 3000).2.orders.map
        (fun o => (o.paymentStatus, o.statusHistory.map (fun e => e.status)))
        = [(PaymentStatus.paid, [Status.placed, Status.confirmed, Status.confirmed])]) := by
  refine ⟨?_, ?_, ?_⟩ <;> decide

/-! ## Creation route: `save()` of the new document -/

/-- A document without an order number fails the validation of `save()`. -/
theorem Order.validate_of_no_orderNumber (order : Order) (h : order.orderNumber = none) :
    order.validate = false := by
  simp [Order.validate, h]

theorem Order.save_of_no_orderNumber (orders : List Order) (order : Order) (now : Date)
    (h : order.orderNumber = none) : Order.save orders order now = none := by
  simp [Order.save, Order.validate_of_no_orderNumber order h]

/-- `new Order({...})` carries no order number, so its `save()` throws: the
validation runs before the hook that would write the number. -/
theorem Order.save_new (orders : List Order) (newId user : ObjectId) (items : List OrderItem)
    (subtotal tax total : ℚ) (estimatedPrepTime : Int) (specialInstructions : Option String)
    (now : Date) :
    Order.save orders
      (Order.new newId user items subtotal tax total estimatedPrepTime specialInstructions) now
      = none :=
  Order.save_of_no_orderNumber _ _ _ rfl

/-! ## Creation route: the handler -/

/-- The creation handler never answers with a success and never writes:
whatever the request, the response is a failure and the database is as before. -/
theorem createOrder_fails (db : Db) (userId : ObjectId) (body : CreateOrderBody)
    (newId : ObjectId) (now : Date) :
    ∃ f, createOrder db userId body newId now = (Response.error f, db) := by
  by_cases hv : validateCreateOrder body = true
  · cases hc : castObjectIds (body.items.map (fun item => item.menuItem)) with
    | none =>
      exact ⟨⟨500, "Server error while creating order"⟩, by simp [createOrder, hv, hc]⟩
    | some ids =>
      by_cases hlen : (MenuItem.findIn db.menuItems ids).length = body.items.length
      · cases hacc : checkItems (MenuItem.findIn db.menuItems ids) body.items
            { subtotal := 0, orderItems := [], stockUpdates := [] } with
        | error failure => exact ⟨failure, by simp [createOrder, hv, hc, hlen, hacc]⟩
        | ok acc =>
          cases hp : mathMax ((MenuItem.findIn db.menuItems ids).map
              (fun item => item.prepTime)) with
          | none =>
            exact ⟨⟨500, "Server error while creating order"⟩,
              by simp [createOrder, hv, hc, hlen, hacc, hp]⟩
          | some p =>
            exact ⟨⟨500, "Server error while creating order"⟩,
              by simp [createOrder, hv, hc, hlen, hacc, hp, Order.save_new]⟩
      · exact ⟨⟨400, "One or more menu items not found"⟩, by simp [createOrder, hv, hc, hlen]⟩
  · exact ⟨⟨400, "Validation failed"⟩, by simp [createOrder, hv]⟩

theorem createOrder_db (db : Db) (userId : ObjectId) (body : CreateOrderBody)
    (newId : ObjectId) (now : Date) : (createOrder db userId body newId now).2 = db := by
  obtain ⟨f, hf⟩ := createOrder_fails db userId body newId now
  rw [hf]

theorem createOrder_not_ok (db : Db) (userId : ObjectId) (body : CreateOrderBody)
    (newId : ObjectId) (now : Date) : createdOrders [(createOrder db userId body newId now).1] = [] := by
  obtain ⟨f, hf⟩ := createOrder_fails db userId body newId now
  rw [hf]
  rfl

/-- The document the read part of the handler builds has no order number. -/
theorem createOrderRead_orderNumber (db : Db) (userId : ObjectId) (body : CreateOrderBody)
    (newId : ObjectId) (draft : OrderDraft)
    (h : createOrderRead db userId body newId = Response.ok draft) :
    draft.order.orderNumber = none := by
  by_cases hv : validateCreateOrder body = true
  · cases hc : castObjectIds (body.items.map (fun item => item.menuItem)) with
    | none => simp [createOrderRead, hv, hc] at h
    | some ids =>
      by_cases hlen : (MenuItem.findIn db.menuItems ids).length = body.items.length
      · cases hacc : checkItems (MenuItem.findIn db.menuItems ids) body.items
            { subtotal := 0, orderItems := [], stockUpdates := [] } with
        | error failure => simp [createOrderRead, hv, hc, hlen, hacc] at h
        | ok acc =>
          cases hp : mathMax ((MenuItem.findIn db.menuItems ids).map
              (fun item => item.prepTime)) with
          | none => simp [createOrderRead, hv, hc, hlen, hacc, hp] at h
          | some p =>
            simp only [createOrderRead, hv, hc, hlen, hacc, hp, not_true_eq_false, if_false,
              ne_eq, Response.ok.injEq] at h
            rw [← h]
            rfl
      · simp [createOrderRead, hv, hc, hlen] at h
  · simp [createOrderRead, hv] at h

/-- The creation handler is its read part followed, on success, by its write
part on the same database. -/
theorem createOrder_eq_phases (db : Db) (userId : ObjectId) (body : CreateOrderBody)
    (newId : ObjectId) (now : Date) :
    createOrder db userId body newId now =
      match createOrderRead db userId body newId with
      | Response.error failure => (Response.error failure, db)
      | Response.ok draft => createOrderWrite db draft now := by
  by_cases hv : validateCreateOrder body = true
  · cases hc : castObjectIds (body.items.map (fun item => item.menuItem)) with
    | none => simp [createOrder, createOrderRead, hv, hc]
    | some ids =>
      by_cases hlen : (MenuItem.findIn db.menuItems ids).length = body.items.length
      · cases hacc : checkItems (MenuItem.findIn db.menuItems ids) body.items
            { subtotal := 0, orderItems := [], stockUpdates := [] } with
        | error failure => simp [createOrder, createOrderRead, hv, hc, hlen, hacc]
        | ok acc =>
          cases hp : mathMax ((MenuItem.findIn db.menuItems ids).map
              (fun item => item.prepTime)) with
          | none => simp [createOrder, createOrderRead, hv, hc, hlen, hacc, hp]
          | some p =>
            simp [createOrder, createOrderRead, createOrderWrite, hv, hc, hlen, hacc, hp]
      · simp [createOrder, createOrderRead, hv, hc, hlen]
  · simp [createOrder, createOrderRead, hv]

/-- The handler on `burgerDb` for the cart of two burgers and one juice, up to
`order.save()`: all checks pass and the document and stock updates of
`burgerDraft` are built. -/
theorem createOrderRead_burger :
    createOrderRead burgerDb 7 burgerCart 100 = Response.ok burgerDraft := by
  have hraw : createOrderRead burgerDb 7 burgerCart 100 = Response.ok
      { order := Order.new 100 7
          [{ menuItem := 1, name := "burger", price := 8.99, quantity := 2,
             subtotal := jsMul 8.99 ((2 : Int) : ℚ) },
           { menuItem := 2, name := "juice", price := 3.99, quantity := 1,
             subtotal := jsMul 3.99 ((1 : Int) : ℚ) }]
          (jsAdd (jsAdd 0 (jsMul 8.99 ((2 : Int) : ℚ))) (jsMul 3.99 ((1 : Int) : ℚ)))
          (jsMul (jsAdd (jsAdd 0 (jsMul 8.99 ((2 : Int) : ℚ))) (jsMul 3.99 ((1 : Int) : ℚ))) 0.08)
          (jsAdd (jsAdd (jsAdd 0 (jsMul 8.99 ((2 : Int) : ℚ))) (jsMul 3.99 ((1 : Int) : ℚ)))
            (jsMul (jsAdd (jsAdd 0 (jsMul 8.99 ((2 : Int) : ℚ))) (jsMul 3.99 ((1 : Int) : ℚ)))
              0.08))
          15 none
        stockUpdates := [{ id := 1, newStock := 3 }, { id := 2, newStock := 0 }] } := rfl
  rw [hraw, jsMul_8_99_two, jsMul_3_99_one, jsAdd_17_98_3_99, jsMul_21_97_tax, jsAdd_21_97_tax]
  rfl

/-- C5, the code at the failing input: for the cart of two burgers and one
juice, all in stock, the handler builds a document whose subtotal is the sum of
its line subtotals, whose tax is 0.08 times the subtotal and whose total is
subtotal plus tax; `save()` rejects the document, which has no order number,
the request is answered with 500 and no order is stored. -/
theorem createOrder_totals_not_stored :
    createOrderRead burgerDb 7 burgerCart 100 = Response.ok burgerDraft ∧
      burgerDraft.order.subtotal
        = burgerDraft.order.items.foldl (fun subtotal line => jsAdd subtotal line.subtotal) 0 ∧
      burgerDraft.order.tax = jsMul burgerDraft.order.subtotal 0.08 ∧
      burgerDraft.order.total = jsAdd burgerDraft.order.subtotal burgerDraft.order.tax ∧
      burgerDraft.order.validate = false ∧
      createOrder burgerDb 7 burgerCart 100 1000
        = (Response.error ⟨500, "Server error while creating order"⟩, burgerDb) ∧
      (createOrder burgerDb 7 burgerCart 100 1000).2.orders = [] :=
  ⟨createOrderRead_burger, jsAdd_17_98_3_99.symm, jsMul_21_97_tax.symm, jsAdd_21_97_tax.symm,
    rfl, rfl, rfl⟩

theorem jsMul_congr (a a' b : ℚ) (h : toDouble a = toDouble a') : jsMul a b = jsMul a' b := by
  unfold jsMul
  rw [h]

/-- C6 (as the code has it): for a cart of two units of an item priced 8.99
and one unit of an item priced 3.99, the document the creation handler builds
has subtotal 21.97, tax 1.7576 and total 23.7276, each the double so written:
tax and total are not rounded to cents. -/
theorem createOrder_burger_juice_totals (db : Db) (userId : ObjectId)
    (burger juice : String) (instructions : Option String) (newId : ObjectId)
    (draft : OrderDraft)
    (hb : ∀ m ∈ db.menuItems, m._id.toString = burger → toDouble m.price = toDouble 8.99)
    (hj : ∀ m ∈ db.menuItems, m._id.toString = juice → toDouble m.price = toDouble 3.99)
    (h : createOrderRead db userId
      { items := [{ menuItem := burger, quantity := 2 }, { menuItem := juice, quantity := 1 }],
        specialInstructions := instructions } newId = Response.ok draft) :
    draft.order.subtotal = toDouble 21.97 ∧ draft.order.tax = toDouble 1.7576 ∧
      draft.order.total = toDouble 23.7276 := by
  by_cases hv : validateCreateOrder
      { items := [{ menuItem := burger, quantity := 2 }, { menuItem := juice, quantity := 1 }],
        specialInstructions := instructions } = true
  · cases hc : castObjectIds [burger, juice] with
    | none => simp [createOrderRead, hv, hc] at h
    | some ids =>
      have hprice : ∀ (id : String) (price : ℚ) (m : MenuItem),
          (∀ m ∈ db.menuItems, m._id.toString = id → toDouble m.price = toDouble price) →
          (MenuItem.findIn db.menuItems ids).find? (fun item => item._id.toString = id)
            = some m →
          toDouble m.price = toDouble price := by
        intro id price m hp hm
        have hmem : m ∈ MenuItem.findIn db.menuItems ids := List.mem_of_find?_eq_some hm
        have hid : m._id.toString = id := by simpa using List.find?_some hm
        exact hp m (List.mem_of_mem_filter hmem) hid
      by_cases hlen : (MenuItem.findIn db.menuItems ids).length = 2
      · cases hacc : checkItems (MenuItem.findIn db.menuItems ids)
            [{ menuItem := burger, quantity := 2 }, { menuItem := juice, quantity := 1 }]
            { subtotal := 0, orderItems := [], stockUpdates := [] } with
        | error failure => simp [createOrderRead, hv, hc, hlen, hacc] at h
        | ok acc =>
          have hsub : acc.subtotal = toDouble 21.97 := by
            cases h1 : (MenuItem.findIn db.menuItems ids).find?
                (fun item => item._id.toString = burger) with
            | none => simp [checkItems, h1] at hacc
            | some m1 =>
              have hp1 := jsMul_congr _ _ ((2 : Int) : ℚ) (hprice burger 8.99 m1 hb h1)
              simp only [checkItems, h1] at hacc
              split at hacc
              · exact absurd hacc (by simp)
              · split at hacc
                · exact absurd hacc (by simp)
                · cases h2 : (MenuItem.findIn db.menuItems ids).find?
                      (fun item => item._id.toString = juice) with
                  | none => simp [h2] at hacc
                  | some m2 =>
                    have hp2 := jsMul_congr _ _ ((1 : Int) : ℚ) (hprice juice 3.99 m2 hj h2)
                    simp only [h2] at hacc
                    split at hacc
                    · exact absurd hacc (by simp)
                    · split at hacc
                      · exact absurd hacc (by simp)
                      · injection hacc with hacc
                        rw [← hacc]
                        simp only [hp1, hp2, jsMul_8_99_two, jsMul_3_99_one, jsAdd_17_98_3_99]
          cases hp : mathMax ((MenuItem.findIn db.menuItems ids).map
              (fun item => item.prepTime)) with
          | none => simp [createOrderRead, hv, hc, hlen, hacc, hp] at h
          | some p =>
            simp only [createOrderRead, hv, hc, hlen, hacc, hp, not_true_eq_false, if_false,
              ne_eq, List.map_cons, List.map_nil, List.length_cons, List.length_nil,
              Response.ok.injEq] at h
            rw [← h]
            simp only [Order.new, hsub, jsMul_21_97_tax, jsAdd_21_97_tax]
            exact ⟨trivial, trivial, trivial⟩
      · simp [createOrderRead, hv, hc, hlen] at h
  · simp [createOrderRead, hv] at h

theorem createOrder_burger_juice_totals_witness :
    burgerDraft.order.subtotal = toDouble 21.97 ∧ burgerDraft.order.tax = toDouble 1.7576 ∧
      burgerDraft.order.total = toDouble 23.7276 :=
  createOrder_burger_juice_totals burgerDb 7 "000000000000000000000001"
    "000000000000000000000002" none 100 burgerDraft
    (by
      intro m hm hid
      simp only [burgerDb, List.mem_cons, List.mem_singleton, List.not_mem_nil, or_false] at hm
      rcases hm with rfl | rfl
      · rfl
      · exact absurd hid (by decide))
    (by
      intro m hm hid
      simp only [burgerDb, List.mem_cons, List.mem_singleton, List.not_mem_nil, or_false] at hm
      rcases hm with rfl | rfl
      · exact absurd hid (by decide)
      · rfl)
    createOrderRead_burger

/-- C6, counterexample: on the catalog with the burger at 8.99 and the juice at
3.99, the document the handler builds for the cart of two burgers and one juice
has subtotal 21.97; its tax is 1.7576, not 1.76, and its total is 23.7276, not
23.73. -/
theorem createOrder_burger_juice_not_rounded :
    ∃ draft, createOrderRead burgerDb 7 burgerCart 100 = Response.ok draft ∧
      draft.order.subtotal = toDouble 21.97 ∧
      draft.order.tax = toDouble 1.7576 ∧ draft.order.tax ≠ toDouble 1.76 ∧
      draft.order.total = toDouble 23.7276 ∧ draft.order.total ≠ toDouble 23.73 := by
  refine ⟨burgerDraft, createOrderRead_burger, rfl, rfl, ?_, rfl, ?_⟩
  · show toDouble 1.7576 ≠ toDouble 1.76
    rw [toDouble_1_7576, toDouble_1_76]
    norm_num
  · show toDouble 23.7276 ≠ toDouble 23.73
    rw [toDouble_23_7276, toDouble_23_73]
    norm_num

theorem createOrder_error_db (db : Db) (userId : ObjectId) (body : CreateOrderBody)
    (newId : ObjectId) (now : Date) (f : Failure)
    (_h : (createOrder db userId body newId now).1 = Response.error f) :
    (createOrder db userId body newId now).2 = db :=
  createOrder_db db userId body newId now

/-- C7: when the creation route answers with a failure (unknown item id,
unavailable item, insufficient stock, or any other), the orders stored and
every menu item, stock and availability flag included, are as before. -/
theorem createOrder_failure_changes_nothing (db : Db) (userId : ObjectId)
    (body : CreateOrderBody) (newId : ObjectId) (now : Date) (f : Failure)
    (h : (createOrder db userId body newId now).1 = Response.error f) :
    (createOrder db userId body newId now).2.orders = db.orders ∧
      (createOrder db userId body newId now).2.menuItems = db.menuItems := by
  rw [createOrder_error_db db userId body newId now f h]
  exact ⟨rfl, rfl⟩

theorem createOrder_failure_changes_nothing_witness :
    (createOrder burgerDb 7 ⟨[⟨"000000000000000000000002", 2⟩], none⟩ 100 1000).2.orders
        = burgerDb.orders ∧
      (createOrder burgerDb 7 ⟨[⟨"000000000000000000000002", 2⟩], none⟩ 100 1000).2.menuItems
        = burgerDb.menuItems :=
  createOrder_failure_changes_nothing burgerDb 7 ⟨[⟨"000000000000000000000002", 2⟩], none⟩
    100 1000 ⟨400, "Insufficient stock for juice. Available: 1"⟩ (by decide)

/-- C8, the code at the failing input: the ids of the cart of two burgers and
one juice are distinct and in the catalog, every line's item is available and
has at least the quantity asked in stock, and the handler passes all its
checks; yet the creation fails, answered with 500 when `save()` throws. -/
theorem createOrder_fails_in_stock :
    (burgerCart.items.map (fun line => line.menuItem)).Nodup ∧
      (∀ line ∈ burgerCart.items, ∃ m ∈ burgerDb.menuItems,
        m._id.toString = line.menuItem ∧ m.isAvailable = true ∧ line.quantity ≤ m.stock) ∧
      (createOrderRead burgerDb 7 burgerCart 100).isOk = true ∧
      createOrder burgerDb 7 burgerCart 100 1000
        = (Response.error ⟨500, "Server error while creating order"⟩, burgerDb) :=
  ⟨by decide, by decide, by decide, rfl⟩

/-- C9, the code at the failing input: for the cart of two burgers and one
juice the handler computes the stock updates 5 - 2 for the burger and 1 - 1 for
the juice, which would leave 3 burgers and the juice at 0 and unavailable; but
`save()` throws before the stock writes, the request is answered with 500, and
the burger still has stock 5 and the juice stock 1, both available. -/
theorem createOrder_stock_not_written :
    createOrderRead burgerDb 7 burgerCart 100 = Response.ok burgerDraft ∧
      burgerDraft.stockUpdates = [{ id := 1, newStock := 5 - 2 }, { id := 2, newStock := 1 - 1 }] ∧
      (applyStockUpdates burgerDb.menuItems burgerDraft.stockUpdates).map
          (fun item => (item._id, item.stock, item.isAvailable))
        = [(1, 3, true), (2, 0, false)] ∧
      createOrder burgerDb 7 burgerCart 100 1000
        = (Response.error ⟨500, "Server error while creating order"⟩, burgerDb) ∧
      (createOrder burgerDb 7 burgerCart 100 1000).2.menuItems.map
          (fun item => (item._id, item.stock, item.isAvailable))
        = [(1, 5, true), (2, 1, true)] :=
  ⟨createOrderRead_burger, rfl, by decide, rfl, by decide⟩

/-! ## Sequences of creations -/

theorem createdOrders_cons (r : Response Order) (rest : List (Response Order)) :
    createdOrders (r :: rest) = createdOrders [r] ++ createdOrders rest := by
  cases r <;> simp [createdOrders]

/-- Creation requests handled one after another leave the database as it was
and create no order. -/
theorem createOrders_db (reqs : List CreateOrderRequest) :
    ∀ db : Db, (createOrders db reqs).2 = db ∧ createdOrders (createOrders db reqs).1 = [] := by
  induction reqs with
  | nil => intro db; exact ⟨rfl, rfl⟩
  | cons req rest ih =>
    intro db
    have hdb := createOrder_db db req.userId req.body req.newId req.now
    have hnone := createOrder_not_ok db req.userId req.body req.newId req.now
    simp only [createOrders]
    rw [hdb, createdOrders_cons, hnone]
    exact ⟨(ih db).1, by simpa using (ih db).2⟩

/-- The loop of the creation route adds only stock values that are not negative. -/
theorem checkItems_stockUpdates (menuItems : List MenuItem) :
    ∀ (lines : List CartLine) (acc acc' : Tally),
      checkItems menuItems lines acc = Response.ok acc' →
      (∀ u ∈ acc.stockUpdates, 0 ≤ u.newStock) →
      ∀ u ∈ acc'.stockUpdates, 0 ≤ u.newStock := by
  intro lines
  induction lines with
  | nil =>
    intro acc acc' h hacc
    simp only [checkItems, Response.ok.injEq] at h
    rw [← h]
    exact hacc
  | cons line rest ih =>
    intro acc acc' h hacc
    cases h1 : menuItems.find? (fun item => item._id.toString = line.menuItem) with
    | none => simp [checkItems, h1] at h
    | some m =>
      simp only [checkItems, h1] at h
      split at h
      · exact absurd h (by simp)
      · split at h
        · exact absurd h (by simp)
        · rename_i hstock
          refine ih _ _ h ?_
          intro u hu
          simp only [List.mem_append, List.mem_singleton] at hu
          rcases hu with hu | hu
          · exact hacc u hu
          · rw [hu]
            simp only
            omega

/-- Every stock value the creation handler prepares for writing is not
negative: a line asking for more than the stock is refused before. -/
theorem createOrderRead_stockUpdates (db : Db) (userId : ObjectId) (body : CreateOrderBody)
    (newId : ObjectId) (draft : OrderDraft)
    (h : createOrderRead db userId body newId = Response.ok draft) :
    ∀ u ∈ draft.stockUpdates, 0 ≤ u.newStock := by
  by_cases hv : validateCreateOrder body = true
  · cases hc : castObjectIds (body.items.map (fun item => item.menuItem)) with
    | none => simp [createOrderRead, hv, hc] at h
    | some ids =>
      by_cases hlen : (MenuItem.findIn db.menuItems ids).length = body.items.length
      · cases hacc : checkItems (MenuItem.findIn db.menuItems ids) body.items
            { subtotal := 0, orderItems := [], stockUpdates := [] } with
        | error failure => simp [createOrderRead, hv, hc, hlen, hacc] at h
        | ok acc =>
          cases hp : mathMax ((MenuItem.findIn db.menuItems ids).map
              (fun item => item.prepTime)) with
          | none => simp [createOrderRead, hv, hc, hlen, hacc, hp] at h
          | some p =>
            simp only [createOrderRead, hv, hc, hlen, hacc, hp, not_true_eq_false, if_false,
              ne_eq, Response.ok.injEq] at h
            rw [← h]
            exact checkItems_stockUpdates _ _ _ _ hacc (by simp)
      · simp [createOrderRead, hv, hc, hlen] at h
  · simp [createOrderRead, hv] at h

/-- C4: order-creation requests are handled one after another on a catalog in
which item `i` has stock `S ≥ 0`.  The quantities of `i` in the orders created
sum to at most `S`, and after every request the stock of `i` is not negative;
moreover every stock value a creation handler prepares for writing, at any
point of the sequence, is not negative.  (No request of the sequence creates
an order, since `save()` rejects the new document, so the stock stays `S`.) -/
theorem createOrders_never_oversell (db : Db) (reqs : List CreateOrderRequest) (i : ObjectId)
    (m : MenuItem) (hfind : MenuItem.findById db.menuItems i = some m) (hS : 0 ≤ m.stock) :
    ((createdOrders (createOrders db reqs).1).map (fun o => o.quantityOf i)).sum ≤ m.stock ∧
      (∀ k, ∃ m', MenuItem.findById (createOrders db (reqs.take k)).2.menuItems i = some m' ∧
        0 ≤ m'.stock ∧ m'.stock = m.stock) ∧
      ∀ k userId body newId draft,
        createOrderRead (createOrders db (reqs.take k)).2 userId body newId
          = Response.ok draft →
        ∀ u ∈ draft.stockUpdates, 0 ≤ u.newStock := by
  refine ⟨?_, ?_, ?_⟩
  · rw [(createOrders_db reqs db).2]
    simpa using hS
  · intro k
    rw [(createOrders_db (reqs.take k) db).1]
    exact ⟨m, hfind, hS, rfl⟩
  · intro k userId body newId draft h
    exact createOrderRead_stockUpdates _ userId body newId draft h

theorem createOrders_never_oversell_witness :
    ((createdOrders (createOrders burgerDb juiceRequests).1).map
        (fun o => o.quantityOf 2)).sum ≤ 1 ∧
      (∀ k, ∃ m', MenuItem.findById
          (createOrders burgerDb (juiceRequests.take k)).2.menuItems 2 = some m' ∧
        0 ≤ m'.stock ∧ m'.stock = 1) ∧
      ∀ k userId body newId draft,
        createOrderRead (createOrders burgerDb (juiceRequests.take k)).2 userId body newId
          = Response.ok draft →
        ∀ u ∈ draft.stockUpdates, 0 ≤ u.newStock :=
  createOrders_never_oversell burgerDb juiceRequests 2
    { _id := 2, name := "juice", price := 3.99, stock := 1, isAvailable := true, prepTime := 2 }
    (by simp [MenuItem.findById, burgerDb]) (by decide)

/-! ## `updateStatus`: what it writes and what it keeps -/

theorem Order.updateStatus_statusHistory (order : Order) (newStatus : Status)
    (updatedBy : Option ObjectId) (notes : Option String) (now : Date) :
    (order.updateStatus newStatus updatedBy notes now).statusHistory =
      order.statusHistory ++
        [{ status := newStatus, timestamp := now, updatedBy := updatedBy,
           notes := some (notes.getD "") }] := by
  unfold Order.updateStatus
  simp only
  split_ifs <;> (try split) <;> rfl

theorem Order.updateStatus_status (order : Order) (newStatus : Status)
    (updatedBy : Option ObjectId) (notes : Option String) (now : Date) :
    (order.updateStatus newStatus updatedBy notes now).status = newStatus := by
  unfold Order.updateStatus
  simp only
  split_ifs <;> (try split) <;> rfl

theorem Order.updateStatus_id (order : Order) (newStatus : Status)
    (updatedBy : Option ObjectId) (notes : Option String) (now : Date) :
    (order.updateStatus newStatus updatedBy notes now)._id = order._id := by
  unfold Order.updateStatus
  simp only
  split_ifs <;> (try split) <;> rfl

/-- The fields `updateStatus` never writes. -/
theorem Order.updateStatus_frame (order : Order) (newStatus : Status)
    (updatedBy : Option ObjectId) (notes : Option String) (now : Date) :
    (order.updateStatus newStatus updatedBy notes now).paymentStatus = order.paymentStatus ∧
    (order.updateStatus newStatus updatedBy notes now).stripePaymentIntentId
      = order.stripePaymentIntentId ∧
    (order.updateStatus newStatus updatedBy notes now).user = order.user ∧
    (order.updateStatus newStatus updatedBy notes now).items = order.items := by
  unfold Order.updateStatus
  simp only
  split_ifs <;> (try split) <;> exact ⟨rfl, rfl, rfl, rfl⟩

/-! ## Stored orders -/

theorem findById_store (orders : List Order) (id : ObjectId) (order order' : Order)
    (hfind : Order.findById orders id = some order) (hid : order'._id = order._id) :
    Order.findById (Order.store orders order') id = some order' := by
  induction orders with
  | nil => simp [Order.findById] at hfind
  | cons a rest ih =>
    unfold Order.findById at hfind ih ⊢
    unfold Order.store
    rw [List.find?_cons] at hfind
    by_cases ha : a._id = id
    · simp only [ha, decide_True] at hfind
      injection hfind with hfind
      subst hfind
      rw [if_pos hid.symm, List.find?_cons]
      have : order'._id = id := hid.trans ha
      simp [this]
    · simp only [ha, decide_False] at hfind
      have hoid : order._id = id := by simpa using List.find?_some hfind
      have hne : ¬ a._id = order'._id := by rw [hid, hoid]; exact ha
      simp only [hne, if_false, List.find?_cons, ha, decide_False]
      exact ih hfind

/-! ## Status route: legal transitions -/

/-- C11: a status update that passes validation, for an order that exists and a
requested status that the transition table allows after the order's current
status, succeeds; the stored order then has the requested status, and its
history is the old one followed by the single entry (requested status, current
time, acting user, note), the note being `''` when the body has none. -/
theorem updateOrderStatus_applies (db : Db) (id : ObjectId) (body : StatusUpdateBody)
    (userId : ObjectId) (now : Date) (order : Order) (status : Status)
    (hvalid : validateStatusUpdate body = some status)
    (hfind : Order.findById db.orders id = some order)
    (hpair : (order.status, status) ∈
        [(Status.placed, Status.confirmed), (Status.placed, Status.cancelled),
         (Status.confirmed, Status.preparing), (Status.confirmed, Status.cancelled),
         (Status.preparing, Status.ready), (Status.preparing, Status.cancelled),
         (Status.ready, Status.completed)]) :
    ∃ order', (updateOrderStatus db id body userId now).1 = Response.ok order' ∧
      Order.findById (updateOrderStatus db id body userId now).2.orders id = some order' ∧
      order'.status = status ∧
      order'.statusHistory = order.statusHistory ++
        [{ status := status, timestamp := now, updatedBy := some userId,
           notes := some (body.notes.getD "") }] := by
  have hin : (validTransitions order.status).contains status = true := by
    revert hpair
    cases order.status <;> cases status <;> simp [validTransitions]
  have hid : order._id = id := by
    simpa [Order.findById] using List.find?_some hfind
  simp only [updateOrderStatus, hvalid, hfind, hin, not_true_eq_false, if_false]
  refine ⟨_, rfl, ?_, ?_, ?_⟩
  · apply findById_store _ _ order _ hfind
    rw [Order.updateStatus_id]
    split <;> rfl
  · rw [Order.updateStatus_status]
  · rw [Order.updateStatus_statusHistory]
    split <;> rfl

theorem updateOrderStatus_applies_witness :
    ∃ order', (updateOrderStatus sampleDb 100 ⟨"confirmed", some "ok", none⟩ 9 2000).1
        = Response.ok order' ∧
      Order.findById (updateOrderStatus sampleDb 100 ⟨"confirmed", some "ok", none⟩ 9 2000).2.orders
        100 = some order' ∧
      order'.status = Status.confirmed ∧
      order'.statusHistory = sampleOrder.statusHistory ++
        [{ status := Status.confirmed, timestamp := 2000, updatedBy := some 9,
           notes := some "ok" }] :=
  updateOrderStatus_applies sampleDb 100 ⟨"confirmed", some "ok", none⟩ 9 2000 sampleOrder
    Status.confirmed (by decide) rfl (by decide)

/-! ## Webhook and direct confirmation -/

/-- C12: when the signature verification of the webhook fails, the handler
answers 400 and the database, every order with it, is as before, whatever the
raw body holds. -/
theorem webhook_rejects_unverified (stripe : Stripe) (db : Db) (rawBody sig : String)
    (now : Date) (h : stripe.constructEvent rawBody sig = none) :
    webhook stripe db rawBody sig now = (400, db) := by
  simp [webhook, h]

theorem webhook_rejects_unverified_witness :
    webhook signingStripe sampleDb "payment_intent.succeeded" "forged" 3000 = (400, sampleDb) :=
  webhook_rejects_unverified signingStripe sampleDb "payment_intent.succeeded" "forged" 3000
    (by decide)

/-- C13: unless Stripe reports the presented payment intent as succeeded and
some stored order has that payment reference and the requesting user as owner,
the direct confirmation answers with a failure and the database, every order
with it, is as before. -/
theorem confirmPayment_guard (stripe : Stripe) (db : Db) (paymentIntentId : String)
    (userId : ObjectId) (now : Date)
    (h : ¬ ((∃ paymentIntent, stripe.retrieve paymentIntentId = some paymentIntent ∧
              paymentIntent.status = "succeeded") ∧
            ∃ order ∈ db.orders, order.stripePaymentIntentId = some paymentIntentId ∧
              order.user = userId)) :
    (∃ f, (confirmPayment stripe db paymentIntentId userId now).1 = Response.error f) ∧
      (confirmPayment stripe db paymentIntentId userId now).2 = db := by
  unfold confirmPayment
  by_cases hempty : paymentIntentId = ""
  · simp [hempty]
  · simp only [hempty, if_false]
    cases hr : stripe.retrieve paymentIntentId with
    | none => simp
    | some paymentIntent =>
      by_cases hs : paymentIntent.status = "succeeded"
      · simp only [hs, ne_eq, not_true_eq_false, if_false]
        cases hf : Order.findByIntentAndUser db.orders paymentIntentId userId with
        | none => simp
        | some order =>
          exfalso
          apply h
          refine ⟨⟨paymentIntent, hr, hs⟩, order, ?_, ?_⟩
          · exact List.mem_of_find?_eq_some hf
          · simpa [Order.findByIntentAndUser] using List.find?_some hf
      · simp [hs]

theorem confirmPayment_guard_witness :
    (∃ f, (confirmPayment paidStripe sampleDb "pi_1" 8 2000).1 = Response.error f) ∧
      (confirmPayment paidStripe sampleDb "pi_1" 8 2000).2 = sampleDb :=
  confirmPayment_guard paidStripe sampleDb "pi_1" 8 2000 (by
    intro ⟨_, order, hmem, _, huser⟩
    simp only [sampleDb, List.mem_singleton] at hmem
    rw [hmem] at huser
    exact absurd huser (by decide))

theorem findByIntent_store (orders : List Order) (id : String) (order order' : Order)
    (hfind : Order.findByIntent orders id = some order) (hid : order'._id = order._id)
    (hintent : order'.stripePaymentIntentId = some id) :
    Order.findByIntent (Order.store orders order') id = some order' := by
  induction orders with
  | nil => simp [Order.findByIntent] at hfind
  | cons a rest ih =>
    unfold Order.findByIntent at hfind ih ⊢
    unfold Order.store
    by_cases hida : a._id = order'._id
    · rw [if_pos hida, List.find?_cons]
      simp [hintent]
    · rw [if_neg hida, List.find?_cons]
      rw [List.find?_cons] at hfind
      by_cases ha : a.stripePaymentIntentId = some id
      · simp only [ha, decide_True] at hfind
        injection hfind with hfind
        subst hfind
        exact absurd hid.symm hida
      · simp only [ha, decide_False] at hfind ⊢
        exact ih hfind

/-- C14: for an order found by the payment reference, handling the webhook
success event twice leaves the database as handling it once does; when the
order is already paid the handler changes nothing; when it is not, the stored
order becomes paid and confirmed and its history gains exactly one entry. -/
theorem handlePaymentSuccess_idempotent (db : Db) (paymentIntent : PaymentIntent)
    (t1 t2 : Date) (order : Order)
    (hfind : Order.findByIntent db.orders paymentIntent.id = some order) :
    handlePaymentSuccess (handlePaymentSuccess db paymentIntent t1) paymentIntent t2
        = handlePaymentSuccess db paymentIntent t1 ∧
      (order.paymentStatus = PaymentStatus.paid →
        handlePaymentSuccess db paymentIntent t1 = db) ∧
      (order.paymentStatus ≠ PaymentStatus.paid →
        ∃ order', Order.findByIntent (handlePaymentSuccess db paymentIntent t1).orders
            paymentIntent.id = some order' ∧
          order'.paymentStatus = PaymentStatus.paid ∧
          order'.status = Status.confirmed ∧
          order'.statusHistory = order.statusHistory ++
            [{ status := Status.confirmed, timestamp := t1, updatedBy := none,
               notes := some "Payment confirmed via webhook" }]) := by
  by_cases hp : order.paymentStatus = PaymentStatus.paid
  · have h1 : handlePaymentSuccess db paymentIntent t1 = db := by
      simp [handlePaymentSuccess, hfind, hp]
    refine ⟨?_, fun _ => h1, fun hne => absurd hp hne⟩
    rw [h1]
    simp [handlePaymentSuccess, hfind, hp]
  · let paid : Order := { order with paymentStatus := PaymentStatus.paid }
    let o1 : Order :=
      paid.updateStatus Status.confirmed none (some "Payment confirmed via webhook") t1
    have hstored : Order.findByIntent (Order.store db.orders o1) paymentIntent.id = some o1 :=
      findByIntent_store db.orders paymentIntent.id order o1 hfind
        (Order.updateStatus_id _ _ _ _ _)
        ((Order.updateStatus_frame _ _ _ _ _).2.1.trans
          (by simpa [Order.findByIntent] using List.find?_some hfind))
    have h1 : handlePaymentSuccess db paymentIntent t1 =
        { db with orders := Order.store db.orders o1 } := by
      simp only [handlePaymentSuccess, hfind, hp, ne_eq, not_false_eq_true, if_true]
    have hpaid : o1.paymentStatus = PaymentStatus.paid :=
      (Order.updateStatus_frame _ _ _ _ _).1
    refine ⟨?_, fun h => absurd h hp, fun _ => ⟨o1, by rw [h1]; exact hstored, hpaid, ?_, ?_⟩⟩
    · rw [h1]
      simp only [handlePaymentSuccess, hstored, hpaid, ne_eq, not_true_eq_false, if_false]
    · exact Order.updateStatus_status _ _ _ _ _
    · exact Order.updateStatus_statusHistory _ _ _ _ _

theorem handlePaymentSuccess_idempotent_witness :
    handlePaymentSuccess (handlePaymentSuccess sampleDb (intentWith "pi_1" "succeeded") 2000)
        (intentWith "pi_1" "succeeded") 3000
        = handlePaymentSuccess sampleDb (intentWith "pi_1" "succeeded") 2000 ∧
      (sampleOrder.paymentStatus = PaymentStatus.paid →
        handlePaymentSuccess sampleDb (intentWith "pi_1" "succeeded") 2000 = sampleDb) ∧
      (sampleOrder.paymentStatus ≠ PaymentStatus.paid →
        ∃ order', Order.findByIntent
            (handlePaymentSuccess sampleDb (intentWith "pi_1" "succeeded") 2000).orders
            (intentWith "pi_1" "succeeded").id = some order' ∧
          order'.paymentStatus = PaymentStatus.paid ∧
          order'.status = Status.confirmed ∧
          order'.statusHistory = sampleOrder.statusHistory ++
            [{ status := Status.confirmed, timestamp := 2000, updatedBy := none,
               notes := some "Payment confirmed via webhook" }]) :=
  handlePaymentSuccess_idempotent sampleDb (intentWith "pi_1" "succeeded") 2000 3000
    sampleOrder rfl

/-- C15: for an order found by the payment reference, the payment-failure
handler stores that order with payment status `failed`, whatever it was before,
and with every other field (status, history, lines, totals, cancellation time)
as it was; the menu items are untouched. -/
theorem handlePaymentFailure_frame (db : Db) (paymentIntent : PaymentIntent) (order : Order)
    (hfind : Order.findByIntent db.orders paymentIntent.id = some order) :
    Order.findByIntent (handlePaymentFailure db paymentIntent).orders paymentIntent.id
        = some { order with paymentStatus := PaymentStatus.failed } ∧
      (handlePaymentFailure db paymentIntent).menuItems = db.menuItems := by
  have hstored := findByIntent_store db.orders paymentIntent.id order
    { order with paymentStatus := PaymentStatus.failed } hfind rfl
    (by simpa [Order.findByIntent] using List.find?_some hfind)
  simp only [handlePaymentFailure, hfind]
  exact ⟨hstored, trivial⟩

theorem handlePaymentFailure_frame_witness :
    Order.findByIntent (handlePaymentFailure sampleDb (intentWith "pi_1" "failed")).orders
        (intentWith "pi_1" "failed").id
        = some { sampleOrder with paymentStatus := PaymentStatus.failed } ∧
      (handlePaymentFailure sampleDb (intentWith "pi_1" "failed")).menuItems
        = sampleDb.menuItems :=
  handlePaymentFailure_frame sampleDb (intentWith "pi_1" "failed") sampleOrder rfl

/-! ## Creation route: the new document -/

/-- C17, the code at the failing input: the document `new Order({...})` for the
cart of two burgers and one juice has status `placed`, payment status `pending`
and an empty history; the `pre('save')` hook would push the one entry `placed`;
but `save()` rejects the document before the hook runs, the request is answered
with 500, and no order, in whatever state, is stored. -/
theorem createOrder_initial_state_not_stored :
    createOrderRead burgerDb 7 burgerCart 100 = Response.ok burgerDraft ∧
      burgerDraft.order.status = Status.placed ∧
      burgerDraft.order.paymentStatus = PaymentStatus.pending ∧
      burgerDraft.order.statusHistory = [] ∧
      (Order.preSave burgerDb.orders burgerDraft.order 1000).statusHistory
        = [{ status := Status.placed, timestamp := 1000, updatedBy := none, notes := none }] ∧
      Order.save burgerDb.orders burgerDraft.order 1000 = none ∧
      createOrder burgerDb 7 burgerCart 100 1000
        = (Response.error ⟨500, "Server error while creating order"⟩, burgerDb) ∧
      (createOrder burgerDb 7 burgerCart 100 1000).2.orders = [] :=
  ⟨createOrderRead_burger, rfl, rfl, rfl, rfl, rfl, rfl, rfl⟩

/-! ## `updateStatus`: completion -/

theorem mathRound_nearest (x : ℚ) (n : Int) :
    |((mathRound x : Int) : ℚ) - x| ≤ |(n : ℚ) - x| := by
  have h1 : ((mathRound x : Int) : ℚ) ≤ x + 1 / 2 := Int.floor_le _
  have h2 : x + 1 / 2 < ((mathRound x : Int) : ℚ) + 1 := Int.lt_floor_add_one _
  have hr : |((mathRound x : Int) : ℚ) - x| ≤ 1 / 2 := by
    rw [abs_le]
    constructor <;> linarith
  rcases lt_trichotomy n (mathRound x) with hlt | heq | hgt
  · have : (n : ℚ) + 1 ≤ ((mathRound x : Int) : ℚ) := by exact_mod_cast hlt
    have := neg_le_abs ((n : ℚ) - x)
    linarith
  · rw [heq]
  · have : ((mathRound x : Int) : ℚ) + 1 ≤ (n : ℚ) := by exact_mod_cast hgt
    have := le_abs_self ((n : ℚ) - x)
    linarith

/-- C18: for an order whose history starts with the entry `first`, `updateStatus`
to `completed` at time `t` sets the completion time to `t` and the actual prep
minutes to `Math.round` of the minutes elapsed since `first`, an integer nearest
to that number of minutes; for any other new status both fields are kept. -/
theorem updateStatus_completion (order : Order) (first : StatusEntry)
    (rest : List StatusEntry) (newStatus : Status) (updatedBy : Option ObjectId)
    (notes : Option String) (t : Date)
    (hhist : order.statusHistory = first :: rest) :
    (newStatus = Status.completed →
      (order.updateStatus newStatus updatedBy notes t).completedAt = some t ∧
      (order.updateStatus newStatus updatedBy notes t).actualPrepTime
        = some (mathRound (((t - first.timestamp : Int) : ℚ) / 60000)) ∧
      ∀ n : Int, |((mathRound (((t - first.timestamp : Int) : ℚ) / 60000) : Int) : ℚ)
          - ((t - first.timestamp : Int) : ℚ) / 60000|
        ≤ |(n : ℚ) - ((t - first.timestamp : Int) : ℚ) / 60000|) ∧
    (newStatus ≠ Status.completed →
      (order.updateStatus newStatus updatedBy notes t).completedAt = order.completedAt ∧
      (order.updateStatus newStatus updatedBy notes t).actualPrepTime = order.actualPrepTime) := by
  constructor
  · intro hs
    subst hs
    refine ⟨?_, ?_, fun n => mathRound_nearest _ n⟩
    · simp [Order.updateStatus, hhist]
    · have hmin : ((1000 : ℚ) * 60) = 60000 := by norm_num
      simp [Order.updateStatus, hhist, hmin]
  · intro hs
    unfold Order.updateStatus
    simp only [hs, if_false]
    split <;> exact ⟨rfl, rfl⟩

theorem updateStatus_completion_witness :
    (sampleOrder.updateStatus Status.completed (some 9) none 901000).completedAt
        = some 901000 ∧
      (sampleOrder.updateStatus Status.completed (some 9) none 901000).actualPrepTime
        = some 15 := by
  have h := (updateStatus_completion sampleOrder
    { status := Status.placed, timestamp := 1000, updatedBy := none, notes := none } []
    Status.completed (some 9) none 901000 rfl).1 rfl
  refine ⟨h.1, ?_⟩
  rw [h.2.1]
  congr 1
  rw [mathRound, Int.floor_eq_iff]
  norm_num

/-! ## Creation route: lines and preparation time -/

theorem updateMenuItem_orders (db : Db) (id : ObjectId) (body : MenuItemUpdate) :
    (updateMenuItem db id body).2.orders = db.orders := by
  unfold updateMenuItem
  split
  · rfl
  · split <;> rfl

/-- C19, the code at the failing input: for the cart of two burgers and one
juice the handler builds one line per cart line, in cart order, each with the
id, name and unit price of the catalog item, the quantity asked and the
subtotal price × quantity; but `save()` throws, the request is answered with
500 and no line is stored.  A menu edit never writes the order collection. -/
theorem createOrder_lines_not_stored :
    createOrderRead burgerDb 7 burgerCart 100 = Response.ok burgerDraft ∧
      burgerDraft.order.items =
        [{ menuItem := 1, name := "burger", price := 8.99, quantity := 2,
           subtotal := jsMul 8.99 ((2 : Int) : ℚ) },
         { menuItem := 2, name := "juice", price := 3.99, quantity := 1,
           subtotal := jsMul 3.99 ((1 : Int) : ℚ) }] ∧
      createOrder burgerDb 7 burgerCart 100 1000
        = (Response.error ⟨500, "Server error while creating order"⟩, burgerDb) ∧
      (createOrder burgerDb 7 burgerCart 100 1000).2.orders = [] ∧
      ∀ (db : Db) (id : ObjectId) (edit : MenuItemUpdate),
        (updateMenuItem db id edit).2.orders = db.orders := by
  refine ⟨createOrderRead_burger, ?_, rfl, rfl, updateMenuItem_orders⟩
  rw [jsMul_8_99_two, jsMul_3_99_one]
  rfl

/-- C20, the code at the failing input: the items of the cart of two burgers
and one juice take 10 and 2 minutes to prepare, and the document the handler
builds has estimated prep minutes 15, the longest of the two plus 5; but
`save()` throws, the request is answered with 500 and no order is stored. -/
theorem createOrder_estimatedPrepTime_not_stored :
    createOrderRead burgerDb 7 burgerCart 100 = Response.ok burgerDraft ∧
      burgerDb.menuItems.map (fun item => item.prepTime) = [10, 2] ∧
      mathMax [10, 2] = some 10 ∧
      burgerDraft.order.estimatedPrepTime = 10 + 5 ∧
      createOrder burgerDb 7 burgerCart 100 1000
        = (Response.error ⟨500, "Server error while creating order"⟩, burgerDb) ∧
      (createOrder burgerDb 7 burgerCart 100 1000).2.orders = [] :=
  ⟨createOrderRead_burger, rfl, rfl, rfl, rfl, rfl⟩

/-! ## Histories only grow -/

theorem store_getElem? (orders : List Order) (o' : Order)
    (hn : (orders.map (fun o => o._id)).Nodup) :
    ∀ (k : Nat) (x : Order), orders[k]? = some x →
      (Order.store orders o')[k]? = some (if x._id = o'._id then o' else x) := by
  induction orders with
  | nil => intro k x hx; simp at hx
  | cons a rest ih =>
    intro k x hx
    simp only [List.map_cons, List.nodup_cons, List.mem_map, not_exists, not_and] at hn
    unfold Order.store
    by_cases ha : a._id = o'._id
    · rw [if_pos ha]
      cases k with
      | zero =>
        simp only [List.getElem?_cons_zero, Option.some.injEq] at hx ⊢
        rw [← hx, if_pos ha]
      | succ k =>
        simp only [List.getElem?_cons_succ] at hx ⊢
        have hxmem : x ∈ rest := List.getElem?_mem hx
        have hne : ¬ x._id = o'._id := fun h => hn.1 x hxmem (h.trans ha.symm)
        rw [hx, if_neg hne]
    · rw [if_neg ha]
      cases k with
      | zero =>
        simp only [List.getElem?_cons_zero, Option.some.injEq] at hx ⊢
        rw [← hx, if_neg ha]
      | succ k =>
        simp only [List.getElem?_cons_succ] at hx ⊢
        exact ih hn.2 k x hx

theorem store_length (orders : List Order) (o' : Order) :
    (Order.store orders o').length = orders.length := by
  induction orders with
  | nil => rfl
  | cons a rest ih =>
    unfold Order.store
    split
    · simp
    · simp [ih]

theorem mem_store (orders : List Order) (o' y : Order) (hy : y ∈ Order.store orders o') :
    y = o' ∨ y ∈ orders := by
  induction orders with
  | nil => simp [Order.store] at hy
  | cons a rest ih =>
    unfold Order.store at hy
    split at hy
    · rcases List.mem_cons.mp hy with h | h
      · exact Or.inl h
      · exact Or.inr (List.mem_cons_of_mem _ h)
    · rcases List.mem_cons.mp hy with h | h
      · exact Or.inr (by rw [h]; exact List.mem_cons_self _ _)
      · rcases ih h with h | h
        · exact Or.inl h
        · exact Or.inr (List.mem_cons_of_mem _ h)

theorem ordersStep_prefix (before after : List Order) (now : Date)
    (hstep : OrdersStep before after now)
    (hn : (before.map (fun o => o._id)).Nodup) (k : Nat) (o : Order)
    (hk : before[k]? = some o) :
    ∃ o', after[k]? = some o' ∧ o'._id = o._id ∧
      ∃ added, o'.statusHistory = o.statusHistory ++ added := by
  rcases hstep with h | ⟨o0, ho0, o1, hid, hhist, h⟩
  · exact ⟨o, by rw [h]; exact hk, rfl, [], by simp⟩
  · rw [h, store_getElem? before o1 hn k o hk]
    by_cases hx : o._id = o1._id
    · rw [if_pos hx]
      have heq : o = o0 :=
        List.inj_on_of_nodup_map hn (List.getElem?_mem hk) ho0 (hx.trans hid)
      subst heq
      refine ⟨o1, rfl, hid, ?_⟩
      rcases hhist with hh | ⟨e, _, hh⟩
      · exact ⟨[], by simp [hh]⟩
      · exact ⟨[e], hh⟩
    · rw [if_neg hx]
      exact ⟨o, rfl, rfl, [], by simp⟩

theorem ordersStep_length (before after : List Order) (now : Date)
    (hstep : OrdersStep before after now) : after.length = before.length := by
  rcases hstep with h | ⟨o0, _, o1, _, _, h⟩
  · rw [h]
  · rw [h, store_length]

theorem ordersStep_ordered (before after : List Order) (t now : Date)
    (hstep : OrdersStep before after now) (ht : t ≤ now)
    (hinv : HistoriesOrdered before t) : HistoriesOrdered after now := by
  have hold : ∀ o ∈ before,
      (o.statusHistory.map (fun e => e.timestamp)).Pairwise (fun a b => a ≤ b) ∧
        ∀ e ∈ o.statusHistory, e.timestamp ≤ now :=
    fun o ho => ⟨(hinv o ho).1, fun e he => le_trans ((hinv o ho).2 e he) ht⟩
  rcases hstep with h | ⟨o0, ho0, o1, _, hhist, h⟩
  · rw [h]; exact hold
  · intro y hy
    rw [h] at hy
    rcases mem_store before o1 y hy with hy | hy
    · rw [hy]
      rcases hhist with hh | ⟨e, he, hh⟩
      · rw [hh]; exact hold o0 ho0
      · rw [hh]
        constructor
        · rw [List.map_append, List.pairwise_append]
          refine ⟨(hold o0 ho0).1, by simp, ?_⟩
          intro a ha b hb
          obtain ⟨ea, hea, rfl⟩ := List.mem_map.mp ha
          simp only [List.map_cons, List.map_nil, List.mem_singleton] at hb
          rw [hb, he]
          exact (hold o0 ho0).2 ea hea
        · intro e' he'
          rcases List.mem_append.mp he' with h1 | h1
          · exact (hold o0 ho0).2 e' h1
          · rw [List.mem_singleton] at h1
            rw [h1, he]
    · exact hold y hy

theorem updateStatus_extends (o0 o1 : Order) (hid : o1._id = o0._id)
    (hh : o1.statusHistory = o0.statusHistory) (newStatus : Status)
    (updatedBy : Option ObjectId) (notes : Option String) (now : Date) :
    (o1.updateStatus newStatus updatedBy notes now)._id = o0._id ∧
      ((o1.updateStatus newStatus updatedBy notes now).statusHistory = o0.statusHistory ∨
        ∃ e : StatusEntry, e.timestamp = now ∧
          (o1.updateStatus newStatus updatedBy notes now).statusHistory
            = o0.statusHistory ++ [e]) := by
  refine ⟨by rw [Order.updateStatus_id, hid], Or.inr
    ⟨StatusEntry.mk newStatus now updatedBy (some (notes.getD "")), rfl, ?_⟩⟩
  rw [Order.updateStatus_statusHistory, hh]

theorem createOrder_ordersStep (db : Db) (userId : ObjectId) (body : CreateOrderBody)
    (newId : ObjectId) (now : Date) :
    OrdersStep db.orders (createOrder db userId body newId now).2.orders now := by
  rw [createOrder_db]
  exact Or.inl rfl

theorem updateOrderStatus_ordersStep (db : Db) (id : ObjectId) (body : StatusUpdateBody)
    (userId : ObjectId) (now : Date) :
    OrdersStep db.orders (updateOrderStatus db id body userId now).2.orders now := by
  unfold updateOrderStatus
  cases hv : validateStatusUpdate body with
  | none => exact Or.inl rfl
  | some status =>
    cases hf : Order.findById db.orders id with
    | none => exact Or.inl rfl
    | some order =>
      simp only
      split
      · exact Or.inl rfl
      · have hext := updateStatus_extends order
          (if status = Status.cancelled ∧ truthy body.cancellationReason then
            { order with cancellationReason := body.cancellationReason } else order)
          (by split <;> rfl) (by split <;> rfl) status (some userId) body.notes now
        exact Or.inr ⟨order, List.mem_of_find?_eq_some hf, _, hext.1, hext.2, rfl⟩

theorem createPaymentIntent_ordersStep (stripe : Stripe) (db : Db) (orderId userId : ObjectId)
    (now : Date) :
    OrdersStep db.orders (createPaymentIntent stripe db orderId userId).2.orders now := by
  unfold createPaymentIntent
  cases hf : Order.findByIdAndUser db.orders orderId userId with
  | none => exact Or.inl rfl
  | some order =>
    simp only
    by_cases hp : order.paymentStatus = PaymentStatus.paid
    · simp only [hp, if_true]
      exact Or.inl rfl
    · simp only [hp, if_false]
      cases hc : stripe.create (mathRound (jsMul order.total 100)) order._id with
      | none => exact Or.inl rfl
      | some paymentIntent =>
        exact Or.inr ⟨order, List.mem_of_find?_eq_some hf,
          { order with stripePaymentIntentId := some paymentIntent.id }, rfl, Or.inl rfl, rfl⟩

theorem confirmPayment_ordersStep (stripe : Stripe) (db : Db) (paymentIntentId : String)
    (userId : ObjectId) (now : Date) :
    OrdersStep db.orders (confirmPayment stripe db paymentIntentId userId now).2.orders now := by
  unfold confirmPayment
  split
  · exact Or.inl rfl
  · split
    · exact Or.inl rfl
    · split
      · exact Or.inl rfl
      · split
        · exact Or.inl rfl
        · rename_i order hf
          have hext := updateStatus_extends order
            { order with paymentStatus := PaymentStatus.paid,
                         paymentMethod := PaymentMethod.stripe }
            rfl rfl Status.confirmed none (some "Payment confirmed") now
          exact Or.inr ⟨order, List.mem_of_find?_eq_some hf, _, hext.1, hext.2, rfl⟩

theorem handlePaymentSuccess_ordersStep (db : Db) (paymentIntent : PaymentIntent) (now : Date) :
    OrdersStep db.orders (handlePaymentSuccess db paymentIntent now).orders now := by
  unfold handlePaymentSuccess
  split
  · exact Or.inl rfl
  · rename_i order hf
    split
    · have hext := updateStatus_extends order
        { order with paymentStatus := PaymentStatus.paid }
        rfl rfl Status.confirmed none (some "Payment confirmed via webhook") now
      exact Or.inr ⟨order, List.mem_of_find?_eq_some hf, _, hext.1, hext.2, rfl⟩
    · exact Or.inl rfl

theorem handlePaymentFailure_ordersStep (db : Db) (paymentIntent : PaymentIntent) (now : Date) :
    OrdersStep db.orders (handlePaymentFailure db paymentIntent).orders now := by
  unfold handlePaymentFailure
  split
  · exact Or.inl rfl
  · rename_i order hf
    exact Or.inr ⟨order, List.mem_of_find?_eq_some hf,
      { order with paymentStatus := PaymentStatus.failed }, rfl, Or.inl rfl, rfl⟩

theorem webhook_ordersStep (stripe : Stripe) (db : Db) (rawBody sig : String) (now : Date) :
    OrdersStep db.orders (webhook stripe db rawBody sig now).2.orders now := by
  unfold webhook
  split
  · exact Or.inl rfl
  · split
    · exact handlePaymentSuccess_ordersStep db _ now
    · split
      · exact handlePaymentFailure_ordersStep db _ now
      · exact Or.inl rfl

theorem handle_ordersStep (stripe : Stripe) (db : Db) (req : Request) (now : Date) :
    OrdersStep db.orders (handle stripe db req now).orders now := by
  cases req with
  | createOrder userId body newId => exact createOrder_ordersStep db userId body newId now
  | updateOrderStatus id body userId => exact updateOrderStatus_ordersStep db id body userId now
  | createPaymentIntent orderId userId =>
    exact createPaymentIntent_ordersStep stripe db orderId userId now
  | confirmPayment paymentIntentId userId =>
    exact confirmPayment_ordersStep stripe db paymentIntentId userId now
  | webhook rawBody sig => exact webhook_ordersStep stripe db rawBody sig now
  | updateMenuItem id body =>
    exact Or.inl (updateMenuItem_orders db id body)

theorem handleAll_ordered (stripe : Stripe) (reqs : List (Request × Date)) :
    ∀ (db : Db) (t : Date), HistoriesOrdered db.orders t →
      (∀ r ∈ reqs, t ≤ r.2) →
      (reqs.map (fun r => r.2)).Pairwise (fun a b => a ≤ b) →
      ∃ t', HistoriesOrdered (handleAll stripe db reqs).orders t' := by
  induction reqs with
  | nil => intro db t hinv _ _; exact ⟨t, hinv⟩
  | cons r rest ih =>
    intro db t hinv hge hclock
    obtain ⟨req, now⟩ := r
    simp only [List.map_cons, List.pairwise_cons, List.mem_map, forall_exists_index, and_imp,
      forall_apply_eq_imp_iff₂] at hclock
    have hnow : t ≤ now := hge (req, now) (List.mem_cons_self _ _)
    have hstep := ordersStep_ordered _ _ t now (handle_ordersStep stripe db req now) hnow hinv
    exact ih (handle stripe db req now) now hstep (fun r hr => hclock.1 r hr) hclock.2

/-- C16: every write only appends to the status history.  The `pre('save')`
hook of a new document appends one entry to the history it finds.  On a
collection with unique order ids a handler run leaves as many orders as before,
and the order at every position is afterwards at the same position with its
history extended at the end (possibly by nothing).  When every stored history
is in non-decreasing time order and not later than `t`, and requests are then
handled one after another at times from `t` on that never decrease, every
history is still in non-decreasing time order. -/
theorem history_append_only (stripe : Stripe) :
    (∀ (orders : List Order) (doc : Order) (now : Date),
      (Order.preSave orders doc now).statusHistory = doc.statusHistory ++
        [{ status := doc.status, timestamp := now, updatedBy := none, notes := none }]) ∧
    (∀ (db : Db) (req : Request) (now : Date), (db.orders.map (fun o => o._id)).Nodup →
      (handle stripe db req now).orders.length = db.orders.length ∧
      ∀ (k : Nat) (o : Order), db.orders[k]? = some o →
        ∃ o', (handle stripe db req now).orders[k]? = some o' ∧ o'._id = o._id ∧
          ∃ added, o'.statusHistory = o.statusHistory ++ added) ∧
    (∀ (db : Db) (t : Date) (reqs : List (Request × Date)),
      HistoriesOrdered db.orders t →
      (∀ r ∈ reqs, t ≤ r.2) →
      (reqs.map (fun r => r.2)).Pairwise (fun a b => a ≤ b) →
      ∀ o ∈ (handleAll stripe db reqs).orders,
        (o.statusHistory.map (fun e => e.timestamp)).Pairwise (fun a b => a ≤ b)) := by
  refine ⟨fun _ _ _ => rfl, ?_, ?_⟩
  · intro db req now hn
    exact ⟨ordersStep_length _ _ now (handle_ordersStep stripe db req now),
      fun k o hk => ordersStep_prefix _ _ now (handle_ordersStep stripe db req now) hn k o hk⟩
  · intro db t reqs hinv hge hclock o ho
    obtain ⟨t', hinv'⟩ := handleAll_ordered stripe reqs db t hinv hge hclock
    exact (hinv' o ho).1

theorem history_append_only_witness :
    (handleAll signingStripe sampleDb busyDay).orders.map
        (fun o => o.statusHistory.map (fun e => (e.status, e.timestamp)))
      = [[(Status.placed, 1000), (Status.confirmed, 2000), (Status.confirmed, 2500),
          (Status.preparing, 3000)]] ∧
      ∀ o ∈ (handleAll signingStripe sampleDb busyDay).orders,
        (o.statusHistory.map (fun e => e.timestamp)).Pairwise (fun a b => a ≤ b) :=
  ⟨by decide,
    (history_append_only signingStripe).2.2 sampleDb 1000 busyDay
      (by
        intro o ho
        simp only [sampleDb, List.mem_singleton] at ho
        subst ho
        exact ⟨by decide, by decide⟩)
      (by decide) (by decide)⟩

/-! ## `MenuItem.updateStock` -/

/-- C26: `updateStock(q)` sets the stock to `max(0, stock − q)`, which is never
negative, sets the availability flag to false when that stock is zero and keeps
the flag otherwise; this holds for every `q`, negative ones included. -/
theorem updateStock_spec (item : MenuItem) (q : Int) :
    (item.updateStock q).stock = max 0 (item.stock - q) ∧
      0 ≤ (item.updateStock q).stock ∧
      ((item.updateStock q).stock = 0 → (item.updateStock q).isAvailable = false) ∧
      ((item.updateStock q).stock ≠ 0 → (item.updateStock q).isAvailable = item.isAvailable) := by
  unfold MenuItem.updateStock
  by_cases h : max 0 (item.stock - q) = 0
  · simp [h]
  · simp [h]

/-! ## Creation route: the lookup check -/

/-- C27, the code at the failing input: the cart names the one item of the
catalog by its id written in upper case.  The request passes validation, the
`$in` query casts the id and finds the item, so the lookup check passes with
one item for one line; but the per-line lookup compares the item's
`_id.toString()`, which is in lower case, with the string of the request, and
finds no item: reading `menuItem.isAvailable` throws and the request is
answered with 500.  With the id in lower case the per-line lookup finds the
item and the handler gets as far as `order.save()`. -/
theorem createOrder_lookup_misses_upper_case :
    validateCreateOrder saladCartUpper = true ∧
      castObjectIds (saladCartUpper.items.map (fun item => item.menuItem))
        = some [0x64b0f1a2c3d4e5f601234567] ∧
      (MenuItem.findIn saladDb.menuItems [0x64b0f1a2c3d4e5f601234567]).length
        = saladCartUpper.items.length ∧
      (MenuItem.findIn saladDb.menuItems [0x64b0f1a2c3d4e5f601234567]).map
          (fun item => item._id.toString) = ["64b0f1a2c3d4e5f601234567"] ∧
      ((MenuItem.findIn saladDb.menuItems [0x64b0f1a2c3d4e5f601234567]).find?
          (fun item => item._id.toString = "64B0F1A2C3D4E5F601234567")).isSome = false ∧
      createOrderRead saladDb 7 saladCartUpper 100
        = Response.error ⟨500, "Server error while creating order"⟩ ∧
      createOrder saladDb 7 saladCartUpper 100 1000
        = (Response.error ⟨500, "Server error while creating order"⟩, saladDb) ∧
      ((MenuItem.findIn saladDb.menuItems [0x64b0f1a2c3d4e5f601234567]).find?
          (fun item => item._id.toString = "64b0f1a2c3d4e5f601234567")).isSome = true ∧
      (createOrderRead saladDb 7 saladCart 100).isOk = true :=
  ⟨by decide, by decide, by decide, by decide, by decide, by decide, rfl, by decide, by decide⟩

/-! ## Payment initiation -/

/-- `Math.round(23.7276 * 100)` is 2373. -/
theorem mathRound_23_7276_cents (total : ℚ) (h : toDouble total = toDouble 23.7276) :
    mathRound (jsMul total 100) = 2373 := by
  unfold jsMul
  rw [h, toDouble_23_7276, toDouble_100, toDouble_23_7276_cents, mathRound, Int.floor_eq_iff]
  norm_num

/-- `Math.round(4.185 * 100)` is 418: the product is the double just below
418.5. -/
theorem mathRound_4_185_cents (total : ℚ) (h : toDouble total = toDouble 4.185) :
    mathRound (jsMul total 100) = 418 := by
  unfold jsMul
  rw [h, toDouble_4_185, toDouble_100, toDouble_4_185_cents, mathRound, Int.floor_eq_iff]
  norm_num

/-- C23: for an order found for the requesting user and not yet paid, whose
total times 100 stays in the range of the doubles, the amount given to
`stripe.paymentIntents.create` is `Math.round(total * 100)`: an integer nearest
to the product `total * 100`, which as a double is the exact hundredfold of the
total up to a relative error of 2^-53; for the total 23.7276 the amount is 2373,
and for the total 4.185, whose hundredfold is the double just below 418.5, it
is 418. -/
theorem createPaymentIntent_amount (stripe : Stripe) (db : Db) (orderId userId : ObjectId)
    (order : Order)
    (hfind : Order.findByIdAndUser db.orders orderId userId = some order)
    (hnp : order.paymentStatus ≠ PaymentStatus.paid)
    (hrange : |toDouble order.total * 100| < 2 ^ 1023) :
    (createPaymentIntent stripe db orderId userId).1 =
        (match stripe.create (mathRound (jsMul order.total 100)) order._id with
          | none => Response.error ⟨500, "Server error while creating payment intent"⟩
          | some paymentIntent => Response.ok paymentIntent) ∧
      (∀ n : Int, |((mathRound (jsMul order.total 100) : Int) : ℚ) - jsMul order.total 100|
        ≤ |(n : ℚ) - jsMul order.total 100|) ∧
      |jsMul order.total 100 - toDouble order.total * 100|
        ≤ |toDouble order.total * 100| / 2 ^ 53 + 1 / 2 ^ 1075 ∧
      (toDouble order.total = toDouble 23.7276 → mathRound (jsMul order.total 100) = 2373) ∧
      (toDouble order.total = toDouble 4.185 → mathRound (jsMul order.total 100) = 418) := by
  have _ := hrange
  refine ⟨?_, fun n => mathRound_nearest _ n, ?_, mathRound_23_7276_cents _,
    mathRound_4_185_cents _⟩
  · simp only [createPaymentIntent, hfind, hnp, if_false]
    cases stripe.create (mathRound (jsMul order.total 100)) order._id <;> rfl
  · have h := toDouble_near (toDouble order.total * 100)
    unfold jsMul
    rw [toDouble_100]
    exact h

theorem createPaymentIntent_amount_witness :
    (createPaymentIntent echoStripe burgerDbAfter 100 7).1
      = Response.ok (PaymentIntent.mk "2373" "requires_payment_method" "secret") := by
  have h := createPaymentIntent_amount echoStripe burgerDbAfter 100 7 burgerOrder
    (by simp [Order.findByIdAndUser, burgerDbAfter, burgerOrder]) (by decide)
    (by
      show |toDouble 23.7276 * 100| < 2 ^ 1023
      rw [toDouble_23_7276]
      norm_num [abs_of_pos])
  rw [h.1, h.2.2.2.1 rfl]
  rfl

/-! ## What a handler writes on a stored order -/

theorem statusWrite_of (o o1 : Order) (hid : o1._id = o._id)
    (hnum : o1.orderNumber = o.orderNumber)
    (hintent : o1.stripePaymentIntentId = o.stripePaymentIntentId)
    (hh : o1.statusHistory = o.statusHistory) (newStatus : Status)
    (updatedBy : Option ObjectId) (notes : Option String) (now : Date) :
    StatusWrite now o (o1.updateStatus newStatus updatedBy notes now) :=
  ⟨o1, newStatus, updatedBy, notes, hid, hnum, hintent, hh, rfl⟩

theorem createOrder_change (req : Request) (db : Db) (userId : ObjectId)
    (body : CreateOrderBody) (newId : ObjectId) (now : Date) :
    OrdersChange (OrderWrite req now) db.orders
      (createOrder db userId body newId now).2.orders := by
  rw [createOrder_db]
  exact Or.inl rfl

theorem updateOrderStatus_change (req : Request) (db : Db) (id : ObjectId)
    (body : StatusUpdateBody) (userId : ObjectId) (now : Date) :
    OrdersChange (OrderWrite req now) db.orders
      (updateOrderStatus db id body userId now).2.orders := by
  unfold updateOrderStatus
  cases hv : validateStatusUpdate body with
  | none => exact Or.inl rfl
  | some status =>
    cases hf : Order.findById db.orders id with
    | none => exact Or.inl rfl
    | some order =>
      simp only
      split
      · exact Or.inl rfl
      · have hw := statusWrite_of order
          (if status = Status.cancelled ∧ truthy body.cancellationReason then
            { order with cancellationReason := body.cancellationReason } else order)
          (by split <;> rfl) (by split <;> rfl) (by split <;> rfl) (by split <;> rfl)
          status (some userId) body.notes now
        exact Or.inr ⟨order, List.mem_of_find?_eq_some hf, _, Or.inl hw, rfl⟩

theorem createPaymentIntent_change (stripe : Stripe) (db : Db)
    (orderId userId : ObjectId) (now : Date) :
    OrdersChange (OrderWrite (Request.createPaymentIntent orderId userId) now) db.orders
      (createPaymentIntent stripe db orderId userId).2.orders := by
  unfold createPaymentIntent
  cases hf : Order.findByIdAndUser db.orders orderId userId with
  | none => exact Or.inl rfl
  | some order =>
    simp only
    by_cases hp : order.paymentStatus = PaymentStatus.paid
    · simp only [hp, if_true]
      exact Or.inl rfl
    · simp only [hp, if_false]
      cases hc : stripe.create (mathRound (jsMul order.total 100)) order._id with
      | none => exact Or.inl rfl
      | some paymentIntent =>
        exact Or.inr ⟨order, List.mem_of_find?_eq_some hf,
          { order with stripePaymentIntentId := some paymentIntent.id },
          Or.inr (Or.inr ⟨⟨orderId, userId, rfl⟩, hp, paymentIntent.id, rfl⟩), rfl⟩

theorem confirmPayment_change (req : Request) (stripe : Stripe) (db : Db)
    (paymentIntentId : String) (userId : ObjectId) (now : Date) :
    OrdersChange (OrderWrite req now) db.orders
      (confirmPayment stripe db paymentIntentId userId now).2.orders := by
  unfold confirmPayment
  split
  · exact Or.inl rfl
  · split
    · exact Or.inl rfl
    · split
      · exact Or.inl rfl
      · split
        · exact Or.inl rfl
        · rename_i order hf
          have hw := statusWrite_of order
            { order with paymentStatus := PaymentStatus.paid,
                         paymentMethod := PaymentMethod.stripe }
            rfl rfl rfl rfl Status.confirmed none (some "Payment confirmed") now
          exact Or.inr ⟨order, List.mem_of_find?_eq_some hf, _, Or.inl hw, rfl⟩

theorem webhook_change (req : Request) (stripe : Stripe) (db : Db)
    (rawBody sig : String) (now : Date) :
    OrdersChange (OrderWrite req now) db.orders
      (webhook stripe db rawBody sig now).2.orders := by
  unfold webhook
  split
  · exact Or.inl rfl
  · split
    · unfold handlePaymentSuccess
      split
      · exact Or.inl rfl
      · rename_i order hf
        split
        · have hw := statusWrite_of order { order with paymentStatus := PaymentStatus.paid }
            rfl rfl rfl rfl Status.confirmed none (some "Payment confirmed via webhook") now
          exact Or.inr ⟨order, List.mem_of_find?_eq_some hf, _, Or.inl hw, rfl⟩
        · exact Or.inl rfl
    · split
      · unfold handlePaymentFailure
        split
        · exact Or.inl rfl
        · rename_i order hf
          exact Or.inr ⟨order, List.mem_of_find?_eq_some hf,
            { order with paymentStatus := PaymentStatus.failed }, Or.inr (Or.inl rfl), rfl⟩
      · exact Or.inl rfl

theorem handle_change (stripe : Stripe) (db : Db) (req : Request) (now : Date) :
    OrdersChange (OrderWrite req now) db.orders (handle stripe db req now).orders := by
  cases req with
  | createOrder userId body newId => exact createOrder_change _ db userId body newId now
  | updateOrderStatus id body userId => exact updateOrderStatus_change _ db id body userId now
  | createPaymentIntent orderId userId =>
    exact createPaymentIntent_change stripe db orderId userId now
  | confirmPayment paymentIntentId userId =>
    exact confirmPayment_change _ stripe db paymentIntentId userId now
  | webhook rawBody sig => exact webhook_change _ stripe db rawBody sig now
  | updateMenuItem id body => exact Or.inl (updateMenuItem_orders db id body)

theorem orderWrite_id (req : Request) (now : Date) (o o' : Order)
    (h : OrderWrite req now o o') : o'._id = o._id := by
  rcases h with ⟨o1, s, u, n, hid, _, _, _, rfl⟩ | rfl | ⟨_, _, id, rfl⟩
  · rw [Order.updateStatus_id, hid]
  · rfl
  · rfl

theorem ordersChange_getElem? (W : Order → Order → Prop)
    (before after : List Order) (hstep : OrdersChange W before after)
    (hW : ∀ o o', W o o' → o'._id = o._id)
    (hn : (before.map (fun o => o._id)).Nodup) (k : Nat) (o : Order)
    (hk : before[k]? = some o) :
    ∃ o', after[k]? = some o' ∧ (o' = o ∨ W o o') := by
  rcases hstep with h | ⟨o0, ho0, o1, hw, h⟩
  · exact ⟨o, by rw [h]; exact hk, Or.inl rfl⟩
  · rw [h, store_getElem? before o1 hn k o hk]
    by_cases hx : o._id = o1._id
    · rw [if_pos hx]
      have heq : o = o0 :=
        List.inj_on_of_nodup_map hn (List.getElem?_mem hk) ho0 (hx.trans (hW o0 o1 hw))
      subst heq
      exact ⟨o1, rfl, Or.inr hw⟩
    · rw [if_neg hx]
      exact ⟨o, rfl, Or.inl rfl⟩

theorem ordersChange_mem (W : Order → Order → Prop)
    (before after : List Order) (hstep : OrdersChange W before after) (y : Order)
    (hy : y ∈ after) : y ∈ before ∨ ∃ o ∈ before, W o y := by
  rcases hstep with h | ⟨o0, ho0, o1, hw, h⟩
  · rw [h] at hy; exact Or.inl hy
  · rw [h] at hy
    rcases mem_store before o1 y hy with hy | hy
    · rw [hy]; exact Or.inr ⟨o0, ho0, hw⟩
    · exact Or.inl hy

/-! ## The payment reference -/

/-- C22 (as the code has it): on a collection with unique order ids, a handler
run leaves the payment reference of every stored order as it was, except a
payment initiation on an order that is not paid; and such an initiation, when
Stripe issues an intent, stores that intent's id as the order's reference,
whether a reference was set before or not. -/
theorem paymentReference_stable_unless_initiated (stripe : Stripe) (db : Db) :
    (∀ (req : Request) (now : Date), (db.orders.map (fun o => o._id)).Nodup →
      ∀ (k : Nat) (o : Order), db.orders[k]? = some o →
        ∃ o', (handle stripe db req now).orders[k]? = some o' ∧
          (o'.stripePaymentIntentId = o.stripePaymentIntentId ∨
            ((∃ orderId userId, req = Request.createPaymentIntent orderId userId) ∧
              o.paymentStatus ≠ PaymentStatus.paid))) ∧
    (∀ (orderId userId : ObjectId) (order : Order) (paymentIntent : PaymentIntent),
      Order.findByIdAndUser db.orders orderId userId = some order →
      order.paymentStatus ≠ PaymentStatus.paid →
      stripe.create (mathRound (jsMul order.total 100)) order._id = some paymentIntent →
      (createPaymentIntent stripe db orderId userId).2.orders
        = Order.store db.orders
            { order with stripePaymentIntentId := some paymentIntent.id }) := by
  constructor
  · intro req now hn k o hk
    obtain ⟨o', hk', ho'⟩ := ordersChange_getElem? _ _ _ (handle_change stripe db req now)
      (orderWrite_id req now) hn k o hk
    refine ⟨o', hk', ?_⟩
    rcases ho' with rfl | ⟨o1, s, u, n, _, _, hintent, _, rfl⟩ | rfl | ⟨hreq, hp, id, rfl⟩
    · exact Or.inl rfl
    · exact Or.inl (((Order.updateStatus_frame _ _ _ _ _).2.1).trans hintent)
    · exact Or.inl rfl
    · exact Or.inr ⟨hreq, hp⟩
  · intro orderId userId order paymentIntent hf hp hc
    simp [createPaymentIntent, hf, hp, hc]

theorem paymentReference_stable_unless_initiated_witness :
    ∃ o', (handle retryStripe sampleDb (Request.confirmPayment "pi_1" 7) 2000).orders[0]?
        = some o' ∧
      (o'.stripePaymentIntentId = sampleOrder.stripePaymentIntentId ∨
        ((∃ orderId userId,
            Request.confirmPayment "pi_1" 7 = Request.createPaymentIntent orderId userId) ∧
          sampleOrder.paymentStatus ≠ PaymentStatus.paid)) :=
  (paymentReference_stable_unless_initiated retryStripe sampleDb).1
    (Request.confirmPayment "pi_1" 7) 2000 (by decide) 0 sampleOrder rfl

/-- C22, counterexample: the order has payment status `pending` and the
reference "pi_1"; initiating payment again succeeds and the stored reference is
then "pi_2", the payment status still `pending`. -/
theorem createPaymentIntent_replaces_pending_reference :
    sampleDb.orders.map (fun o => (o._id, o.paymentStatus, o.stripePaymentIntentId))
        = [(100, PaymentStatus.pending, some "pi_1")] ∧
      (createPaymentIntent retryStripe sampleDb 100 7).1.isOk = true ∧
      (createPaymentIntent retryStripe sampleDb 100 7).2.orders.map
          (fun o => (o._id, o.paymentStatus, o.stripePaymentIntentId))
        = [(100, PaymentStatus.pending, some "pi_2")] := by
  refine ⟨by decide, ?_, ?_⟩
  · simp [createPaymentIntent, Order.findByIdAndUser, sampleDb, sampleOrder, retryStripe,
      Response.isOk]
  · simp [createPaymentIntent, Order.findByIdAndUser, sampleDb, sampleOrder, retryStripe,
      Order.store]

/-! ## The last history entry -/

theorem handle_preserves_last (stripe : Stripe) (db : Db) (req : Request) (now : Date)
    (hinv : ∀ o ∈ db.orders, ∃ last, o.statusHistory.getLast? = some last ∧
      last.status = o.status) :
    ∀ o ∈ (handle stripe db req now).orders, ∃ last, o.statusHistory.getLast? = some last ∧
      last.status = o.status := by
  intro y hy
  rcases ordersChange_mem _ _ _ (handle_change stripe db req now) y hy with
    h | ⟨o, ho, hw⟩
  · exact hinv y h
  · rcases hw with ⟨o1, s, u, n, _, _, _, _, rfl⟩ | rfl | ⟨_, _, id, rfl⟩
    · refine ⟨StatusEntry.mk s now u (some (n.getD "")), ?_, ?_⟩
      · rw [Order.updateStatus_statusHistory, List.getLast?_concat]
      · rw [Order.updateStatus_status]
    · exact hinv o ho
    · exact hinv o ho

theorem handleAll_preserves_last (stripe : Stripe) (reqs : List (Request × Date)) :
    ∀ db : Db, (∀ o ∈ db.orders, ∃ last, o.statusHistory.getLast? = some last ∧
        last.status = o.status) →
      ∀ o ∈ (handleAll stripe db reqs).orders, ∃ last, o.statusHistory.getLast? = some last ∧
        last.status = o.status := by
  induction reqs with
  | nil => intro db hinv; exact hinv
  | cons r rest ih =>
    intro db hinv
    obtain ⟨req, now⟩ := r
    exact ih (handle stripe db req now) (handle_preserves_last stripe db req now hinv)

/-- C28: the `pre('save')` hook leaves a new document with a last history
entry that carries the document's status; and when every stored order has a
non-empty history whose last entry carries the order's current status, so has
every stored order after whatever requests (creations, staff status updates,
payment initiations, direct confirmations, webhook events, menu edits) are
handled one after another. -/
theorem history_last_is_status (stripe : Stripe) (db : Db) (reqs : List (Request × Date))
    (hinv : ∀ o ∈ db.orders, ∃ last, o.statusHistory.getLast? = some last ∧
      last.status = o.status) :
    (∀ (orders : List Order) (doc : Order) (now : Date),
      ∃ last, (Order.preSave orders doc now).statusHistory.getLast? = some last ∧
        last.status = (Order.preSave orders doc now).status) ∧
    ∀ o ∈ (handleAll stripe db reqs).orders,
      o.statusHistory ≠ [] ∧
      ∃ last, o.statusHistory.getLast? = some last ∧ last.status = o.status := by
  constructor
  · intro orders doc now
    exact ⟨StatusEntry.mk doc.status now none none, by simp [Order.preSave], rfl⟩
  · intro o ho
    obtain ⟨last, hlast, hstatus⟩ := handleAll_preserves_last stripe reqs db hinv o ho
    refine ⟨?_, last, hlast, hstatus⟩
    intro hnil
    rw [hnil] at hlast
    exact absurd hlast (by simp)

theorem history_last_is_status_witness :
    (handleAll signingStripe sampleDb busyDay).orders.map
        (fun o => (o.status, o.statusHistory.map (fun e => e.status)))
      = [(Status.preparing,
          [Status.placed, Status.confirmed, Status.confirmed, Status.preparing])] ∧
      ∀ o ∈ (handleAll signingStripe sampleDb busyDay).orders,
        o.statusHistory ≠ [] ∧
        ∃ last, o.statusHistory.getLast? = some last ∧ last.status = o.status :=
  ⟨by decide,
    (history_last_is_status signingStripe sampleDb busyDay (by
      intro o ho
      simp only [sampleDb, List.mem_singleton] at ho
      subst ho
      exact ⟨_, rfl, rfl⟩)).2⟩

/-! ## Order numbers -/

theorem digitChar_value (d : Nat) (hd : d < 10) : (Nat.digitChar d).toNat - 48 = d := by
  interval_cases d <;> rfl

theorem toDigitsCore_value (fuel : Nat) :
    ∀ (n : Nat) (ds : List Char), n < fuel →
      digitsValue (Nat.toDigitsCore 10 fuel n ds)
        = ds.foldl (fun value c => 10 * value + (c.toNat - 48)) n := by
  induction fuel with
  | zero => intro n ds h; omega
  | succ fuel ih =>
    intro n ds h
    unfold Nat.toDigitsCore
    have hmod := digitChar_value (n % 10) (Nat.mod_lt n (by decide))
    by_cases hz : n / 10 = 0
    · simp only [hz, if_true]
      have hn : n % 10 = n := by omega
      rw [hn] at hmod
      unfold digitsValue
      simp only [List.foldl_cons, hn, hmod, Nat.mul_zero, Nat.zero_add]
    · simp only [hz, if_false]
      rw [ih (n / 10) _ (by omega)]
      simp only [List.foldl_cons, hmod]
      have : 10 * (n / 10) + n % 10 = n := Nat.div_add_mod n 10
      rw [this]

theorem digitsValue_toString (n : Nat) : digitsValue (toString n).data = n := by
  have h := toDigitsCore_value (n + 1) n [] (by omega)
  simpa using h

theorem digitsValue_zeros (k : Nat) (ds : List Char) :
    digitsValue (List.replicate k (Char.ofNat 48) ++ ds) = digitsValue ds := by
  induction k with
  | zero => rfl
  | succ k ih =>
    unfold digitsValue at ih ⊢
    rw [List.replicate_succ, List.cons_append, List.foldl_cons]
    exact ih

theorem orderNumberAfter_value (count : Nat) :
    digitsValue ((orderNumberAfter count).data.drop 2) = count + 1 := by
  have hdata : (orderNumberAfter count).data =
      [Char.ofNat 70, Char.ofNat 72] ++
        (List.replicate (6 - (toString (count + 1)).length) (Char.ofNat 48)
          ++ (toString (count + 1)).data) := by
    simp only [orderNumberAfter, padStart, String.data_append]
  rw [hdata]
  simp only [List.cons_append, List.nil_append, List.drop_succ_cons, List.drop_zero]
  rw [digitsValue_zeros, digitsValue_toString]

theorem orderNumberAfter_injective (a b : Nat) (h : orderNumberAfter a = orderNumberAfter b) :
    a = b := by
  have := congrArg (fun s : String => digitsValue (s.data.drop 2)) h
  simp only [orderNumberAfter_value] at this
  omega

/-- C21, the code at the failing input: the `pre('save')` hook writes 'FH'
followed by the count of stored orders plus one, left-padded with zeros to at
least 6 digits, and the numbers it writes for different counts differ; for the
first order it would write FH000001.  But `save()` validates the new document
before the hook runs, the document has no order number yet and is rejected:
no creation request is ever answered with a success, the cart of two burgers
and one juice is answered with 500, and after three creation requests handled
one after another no order, hence no order number, is stored. -/
theorem orderNumbers_never_written :
    (∀ (orders : List Order) (doc : Order) (now : Date),
      (Order.preSave orders doc now).orderNumber
        = some ("FH" ++ padStart (toString (orders.length + 1)) 6 (Char.ofNat 48))) ∧
    (∀ n : Nat, 6 ≤ (padStart (toString n) 6 (Char.ofNat 48)).length) ∧
    (∀ a b : Nat, orderNumberAfter a = orderNumberAfter b → a = b) ∧
    (Order.preSave burgerDb.orders burgerDraft.order 1000).orderNumber = some "FH000001" ∧
    burgerDraft.order.orderNumber = none ∧
    Order.save burgerDb.orders burgerDraft.order 1000 = none ∧
    (∀ (db : Db) (userId : ObjectId) (body : CreateOrderBody) (newId : ObjectId) (now : Date),
      (createOrder db userId body newId now).1.isOk = false ∧
        (createOrder db userId body newId now).2 = db) ∧
    createOrderRead burgerDb 7 burgerCart 100 = Response.ok burgerDraft ∧
    createOrder burgerDb 7 burgerCart 100 1000
      = (Response.error ⟨500, "Server error while creating order"⟩, burgerDb) ∧
    (createOrders burgerDb juiceRequests).2.orders.map (fun o => o.orderNumber) = [] := by
  refine ⟨fun _ _ _ => rfl, ?_, orderNumberAfter_injective, by decide, rfl, rfl, ?_,
    createOrderRead_burger, rfl, rfl⟩
  · intro n
    simp only [padStart, String.length_append, String.length_mk, List.length_replicate]
    omega
  · intro db userId body newId now
    obtain ⟨f, hf⟩ := createOrder_fails db userId body newId now
    rw [hf]
    exact ⟨rfl, rfl⟩

/-! ## Reading orders -/

theorem findPage_mem (orders : List Order) (filter : OrderFilter) (sortBy sortOrder : String)
    (skip limit : Nat) (o : Order)
    (ho : o ∈ Order.findPage orders filter sortBy sortOrder skip limit) :
    o ∈ orders ∧ filter.matches o = true := by
  unfold Order.findPage at ho
  simp only [List.mem_map] at ho
  obtain ⟨entry, hentry, rfl⟩ := ho
  have hsorted := List.mem_of_mem_drop (List.mem_of_mem_take hentry)
  have hfound : entry ∈ orders.enum.filter (fun entry => filter.matches entry.2) := by
    split at hsorted
    · exact (List.mem_insertionSort _).mp hsorted
    · exact (List.mem_insertionSort _).mp hsorted
  rw [List.mem_filter] at hfound
  refine ⟨?_, hfound.2⟩
  exact List.getElem?_mem (List.mem_enum_iff_getElem?.mp hfound.1)

theorem matches_user (filter : OrderFilter) (o : Order) (user : ObjectId)
    (hfilter : filter.user = some user) (h : filter.matches o = true) : o.user = user := by
  unfold OrderFilter.matches at h
  rw [hfilter] at h
  simp only [Bool.and_eq_true, decide_eq_true_eq] at h
  exact h.1.2

/-- C24: for a requesting user whose role is neither admin nor staff, the
filters of the list route and of the single-order route carry the user's id as
owner, every order of a list response and the order of a single-order response
belong to that user; for the roles admin and staff the filters carry no owner,
and the single-order route answers with the order of the requested id whoever
owns it. -/
theorem orders_scoped_to_owner (db : Db) (user : AuthUser) :
    ((user.role ≠ "admin" ∧ user.role ≠ "staff") →
      (∀ status, (listFilter user status).user = some user.userId) ∧
      (∀ id, (singleFilter user id).user = some user.userId) ∧
      (∀ query page, getOrders db user query = Response.ok page →
        ∀ o ∈ page.orders, o ∈ db.orders ∧ o.user = user.userId) ∧
      (∀ id o, getOrder db user id = Response.ok o → o ∈ db.orders ∧ o.user = user.userId)) ∧
    ((user.role = "admin" ∨ user.role = "staff") →
      (∀ status, (listFilter user status).user = none) ∧
      (∀ id, (singleFilter user id).user = none) ∧
      (∀ id o, Order.findById db.orders id = some o → getOrder db user id = Response.ok o)) := by
  constructor
  · intro hrole
    have hnot : ¬ (user.role = "admin" ∨ user.role = "staff") := by
      intro h
      rcases h with h | h
      · exact hrole.1 h
      · exact hrole.2 h
    have hlist : ∀ status, (listFilter user status).user = some user.userId := by
      intro status
      unfold listFilter
      cases status <;> simp [hnot]
    have hsingle : ∀ id, (singleFilter user id).user = some user.userId := by
      intro id
      simp [singleFilter, hrole]
    refine ⟨hlist, hsingle, ?_, ?_⟩
    · intro query page hpage o ho
      unfold getOrders at hpage
      cases hv : validateListOrders query with
      | none => simp [hv] at hpage
      | some status =>
        simp only [hv, Response.ok.injEq] at hpage
        rw [← hpage] at ho
        obtain ⟨hmem, hmatch⟩ := findPage_mem _ _ _ _ _ _ o ho
        exact ⟨hmem, matches_user _ o user.userId (hlist status) hmatch⟩
    · intro id o hget
      unfold getOrder at hget
      cases hf : db.orders.find? (singleFilter user id).matches with
      | none => simp [hf] at hget
      | some found =>
        simp only [hf, Response.ok.injEq] at hget
        subst hget
        exact ⟨List.mem_of_find?_eq_some hf,
          matches_user _ found user.userId (hsingle id) (List.find?_some hf)⟩
  · intro hrole
    have hsingle : ∀ id, singleFilter user id = { _id := some id } := by
      intro id
      unfold singleFilter
      rcases hrole with h | h <;> simp [h]
    refine ⟨?_, fun id => by rw [hsingle id], ?_⟩
    · intro status
      unfold listFilter
      cases status <;> simp [hrole]
    · intro id o hfind
      unfold getOrder
      have hpred : (singleFilter user id).matches = fun o : Order => decide (o._id = id) := by
        funext o
        rw [hsingle id]
        simp [OrderFilter.matches]
      rw [hpred]
      unfold Order.findById at hfind
      rw [hfind]

theorem orders_scoped_to_owner_witness :
    (singleFilter ⟨8, "customer"⟩ 100).user = some 8 ∧
      (listFilter ⟨8, "customer"⟩ none).user = some 8 ∧
      getOrder sampleDb ⟨9, "staff"⟩ 100 = Response.ok sampleOrder :=
  ⟨((orders_scoped_to_owner sampleDb ⟨8, "customer"⟩).1 (by decide)).2.1 100,
    ((orders_scoped_to_owner sampleDb ⟨8, "customer"⟩).1 (by decide)).1 none,
    ((orders_scoped_to_owner sampleDb ⟨9, "staff"⟩).2 (by decide)).2.2 100 sampleOrder rfl⟩

/-! ## Two creations for the last unit -/

/-- The write part of the handler fails on a document without an order number
and writes nothing. -/
theorem createOrderWrite_fails (db : Db) (draft : OrderDraft) (now : Date)
    (h : draft.order.orderNumber = none) :
    createOrderWrite db draft now
      = (Response.error ⟨500, "Server error while creating order"⟩, db) := by
  simp [createOrderWrite, Order.save_of_no_orderNumber _ _ _ h]

/-- Two creation handlers whose runs overlap create no order and leave the
database as it was. -/
theorem createOrdersOverlapped_fails (db : Db) (first second : CreateOrderRequest) :
    (createOrdersOverlapped db first second).2 = db ∧
      createdOrders (createOrdersOverlapped db first second).1 = [] := by
  unfold createOrdersOverlapped
  cases h1 : createOrderRead db first.userId first.body first.newId with
  | error f1 =>
    cases h2 : createOrderRead db second.userId second.body second.newId with
    | error f2 => exact ⟨rfl, rfl⟩
    | ok d2 =>
      have hw := createOrderWrite_fails db d2 second.now
        (createOrderRead_orderNumber _ _ _ _ _ h2)
      simp [hw, createdOrders]
  | ok d1 =>
    have hw1 := createOrderWrite_fails db d1 first.now
      (createOrderRead_orderNumber _ _ _ _ _ h1)
    cases h2 : createOrderRead db second.userId second.body second.newId with
    | error f2 =>
      simp [hw1, createdOrders]
    | ok d2 =>
      have hw2 := createOrderWrite_fails db d2 second.now
        (createOrderRead_orderNumber _ _ _ _ _ h2)
      simp [hw1, hw2, createdOrders]

/-- C25, the code at the failing input: on `burgerDb` the juice has stock 1 and
is available, and two requests each ask for one juice.  Each request alone
passes every check of the handler.  Handled one after the other, in either
order, and likewise when both have read the catalog before either writes, both
requests are answered with 500, because `save()` throws; no order is stored and
the juice still has stock 1 and is available.  Whatever the catalog and the
two requests, neither order of handling nor the overlap creates an order or
changes the stock. -/
theorem createOrders_last_unit_both_fail :
    (∀ (db : Db) (first second : CreateOrderRequest),
      (createOrders db [first, second]).2 = db ∧
      createdOrders (createOrders db [first, second]).1 = [] ∧
      (createOrdersOverlapped db first second).2 = db ∧
      createdOrders (createOrdersOverlapped db first second).1 = []) ∧
      burgerDb.menuItems.map (fun item => (item._id, item.stock, item.isAvailable))
        = [(1, 5, true), (2, 1, true)] ∧
      (createOrderRead burgerDb 7 juiceCart 100).isOk = true ∧
      (createOrderRead burgerDb 8 juiceCart 101).isOk = true ∧
      createOrders burgerDb [⟨7, juiceCart, 100, 1000⟩, ⟨8, juiceCart, 101, 1001⟩]
        = ([Response.error ⟨500, "Server error while creating order"⟩,
            Response.error ⟨500, "Server error while creating order"⟩], burgerDb) ∧
      createOrders burgerDb [⟨8, juiceCart, 101, 1001⟩, ⟨7, juiceCart, 100, 1000⟩]
        = ([Response.error ⟨500, "Server error while creating order"⟩,
            Response.error ⟨500, "Server error while creating order"⟩], burgerDb) ∧
      createOrdersOverlapped burgerDb ⟨7, juiceCart, 100, 1000⟩ ⟨8, juiceCart, 101, 1001⟩
        = ([Response.error ⟨500, "Server error while creating order"⟩,
            Response.error ⟨500, "Server error while creating order"⟩], burgerDb) ∧
      createOrdersOverlapped burgerDb ⟨8, juiceCart, 101, 1001⟩ ⟨7, juiceCart, 100, 1000⟩
        = ([Response.error ⟨500, "Server error while creating order"⟩,
            Response.error ⟨500, "Server error while creating order"⟩], burgerDb) :=
  ⟨fun db first second =>
      ⟨(createOrders_db [first, second] db).1, (createOrders_db [first, second] db).2,
        (createOrdersOverlapped_fails db first second).1,
        (createOrdersOverlapped_fails db first second).2⟩,
    by decide, by decide, by decide, rfl, rfl, rfl, rfl⟩

/-! ## The cart -/

theorem setQuantity_ids (cart : List CartEntry) (itemId : ObjectId) (q : Int) :
    (CartManager.setQuantity cart itemId q).map (fun item => item._id)
      = cart.map (fun item => item._id) := by
  induction cart with
  | nil => rfl
  | cons a rest ih =>
    unfold CartManager.setQuantity
    split
    · simp
    · simp [ih]

theorem mem_setQuantity (cart : List CartEntry) (itemId : ObjectId) (q : Int) (y : CartEntry)
    (hy : y ∈ CartManager.setQuantity cart itemId q) :
    y ∈ cart ∨ (y._id = itemId ∧ y.quantity = q) := by
  induction cart with
  | nil => simp [CartManager.setQuantity] at hy
  | cons a rest ih =>
    unfold CartManager.setQuantity at hy
    split at hy
    · rename_i ha
      rcases List.mem_cons.mp hy with h | h
      · exact Or.inr (by rw [h]; exact ⟨ha, rfl⟩)
      · exact Or.inl (List.mem_cons_of_mem _ h)
    · rcases List.mem_cons.mp hy with h | h
      · exact Or.inl (by rw [h]; exact List.mem_cons_self _ _)
      · rcases ih h with h | h
        · exact Or.inl (List.mem_cons_of_mem _ h)
        · exact Or.inr h

theorem removeFromCart_sublist (cart : List CartEntry) (itemId : ObjectId) :
    List.Sublist (CartManager.removeFromCart cart itemId) cart := by
  induction cart with
  | nil => exact List.Sublist.refl _
  | cons a rest ih =>
    unfold CartManager.removeFromCart
    split
    · exact List.sublist_cons_self a rest
    · exact List.Sublist.cons₂ a ih

theorem removeFromCart_not_mem (cart : List CartEntry) (itemId : ObjectId)
    (hn : (cart.map (fun item => item._id)).Nodup) :
    itemId ∉ (CartManager.removeFromCart cart itemId).map (fun item => item._id) := by
  induction cart with
  | nil => simp [CartManager.removeFromCart]
  | cons a rest ih =>
    simp only [List.map_cons, List.nodup_cons] at hn
    unfold CartManager.removeFromCart
    split
    · rename_i ha
      rw [← ha]
      exact hn.1
    · rename_i ha
      simp only [List.map_cons, List.mem_cons, not_or]
      exact ⟨fun h => ha h.symm, ih hn.2⟩

theorem getMenuItem_id (menuItems : List MenuItem) (itemId : ObjectId) (menuItem : MenuItem)
    (h : getMenuItem menuItems itemId = some menuItem) : menuItem._id = itemId := by
  simpa [getMenuItem] using List.find?_some h

theorem removeFromCart_ok (menuItems : List MenuItem) (cart : List CartEntry)
    (itemId : ObjectId) (hok : CartOk menuItems cart) :
    CartOk menuItems (CartManager.removeFromCart cart itemId) := by
  have hsub := removeFromCart_sublist cart itemId
  exact ⟨List.Nodup.sublist (hsub.map _) hok.1, fun item hi => hok.2 item (hsub.subset hi)⟩

theorem setQuantity_ok (menuItems : List MenuItem) (cart : List CartEntry)
    (itemId : ObjectId) (q : Int) (menuItem : MenuItem) (hok : CartOk menuItems cart)
    (hmenu : getMenuItem menuItems itemId = some menuItem) (h1 : 1 ≤ q)
    (h2 : q ≤ menuItem.stock) :
    CartOk menuItems (CartManager.setQuantity cart itemId q) := by
  refine ⟨by rw [setQuantity_ids]; exact hok.1, ?_⟩
  intro item hi
  rcases mem_setQuantity cart itemId q item hi with h | ⟨hid, hq⟩
  · exact hok.2 item h
  · rw [hid, hq]
    exact ⟨h1, menuItem, hmenu, h2⟩

theorem addToCart_ok (menuItems : List MenuItem) (cart : List CartEntry)
    (itemId : ObjectId) (quantity : Int) (hq : 1 ≤ quantity) (hok : CartOk menuItems cart) :
    CartOk menuItems (CartManager.addToCart menuItems cart itemId quantity) := by
  unfold CartManager.addToCart
  cases hmenu : getMenuItem menuItems itemId with
  | none => exact hok
  | some menuItem =>
    simp only
    split
    · exact hok
    · cases hfind : cart.find? (fun item => item._id = itemId) with
      | some existingItem =>
        simp only
        split
        · exact hok
        · rename_i hle
          have hex := (hok.2 existingItem (List.mem_of_find?_eq_some hfind)).1
          exact setQuantity_ok menuItems cart itemId _ menuItem hok hmenu (by omega)
            (by omega)
      | none =>
        simp only
        split
        · exact hok
        · rename_i hle
          have hid := getMenuItem_id menuItems itemId menuItem hmenu
          have hnew : itemId ∉ cart.map (fun item => item._id) := by
            intro hmem
            obtain ⟨x, hx, hxid⟩ := List.mem_map.mp hmem
            have := List.find?_eq_none.mp hfind x hx
            simp [hxid] at this
          constructor
          · rw [List.map_append, List.nodup_append]
            refine ⟨hok.1, by simp, ?_⟩
            intro a ha hb
            simp only [List.map_cons, List.map_nil, List.mem_singleton, CartEntry.ofMenuItem] at hb
            rw [hb, hid] at ha
            exact hnew ha
          · intro item hi
            rcases List.mem_append.mp hi with h | h
            · exact hok.2 item h
            · rw [List.mem_singleton] at h
              rw [h]
              simp only [CartEntry.ofMenuItem, hid]
              exact ⟨hq, menuItem, hmenu, by omega⟩

theorem updateQuantity_ok (menuItems : List MenuItem) (cart : List CartEntry)
    (itemId : ObjectId) (newQuantity : Int) (hq : 0 ≤ newQuantity)
    (hok : CartOk menuItems cart) :
    CartOk menuItems (CartManager.updateQuantity menuItems cart itemId newQuantity) := by
  unfold CartManager.updateQuantity
  split
  · exact removeFromCart_ok menuItems cart itemId hok
  · rename_i hne
    split
    · rename_i x menuItem hfind hmenu
      split
      · exact hok
      · exact setQuantity_ok menuItems cart itemId _ menuItem hok hmenu (by omega) (by omega)
    · exact hok

theorem runAll_ok (menuItems : List MenuItem) (calls : List CartCall) :
    ∀ cart : List CartEntry, CartOk menuItems cart → (∀ c ∈ calls, c.inRange = true) →
      CartOk menuItems (CartManager.runAll menuItems cart calls) := by
  induction calls with
  | nil => intro cart hok _; exact hok
  | cons c rest ih =>
    intro cart hok hcalls
    have hc := hcalls c (List.mem_cons_self _ _)
    have hstep : CartOk menuItems (CartCall.run menuItems cart c) := by
      cases c with
      | addToCart itemId quantity =>
        exact addToCart_ok menuItems cart itemId quantity
          (by simpa [CartCall.inRange] using hc) hok
      | updateQuantity itemId newQuantity =>
        exact updateQuantity_ok menuItems cart itemId newQuantity
          (by simpa [CartCall.inRange] using hc) hok
      | removeFromCart itemId => exact removeFromCart_ok menuItems cart itemId hok
    exact ih _ hstep (fun c' hc' => hcalls c' (List.mem_cons_of_mem _ hc'))

/-- C29: from the empty cart, with the menu fixed, after any calls of
`addToCart` with quantity at least 1, `updateQuantity` with a new quantity at
least 0 and `removeFromCart`, the cart has at most one entry per item id, every
entry's quantity is at least 1 and at most the stock of the menu item of that id,
and `updateQuantity` with 0 leaves no entry of that id. -/
theorem cart_invariant (menuItems : List MenuItem) (calls : List CartCall)
    (hcalls : ∀ c ∈ calls, c.inRange = true) :
    ((CartManager.runAll menuItems [] calls).map (fun item => item._id)).Nodup ∧
      (∀ item ∈ CartManager.runAll menuItems [] calls,
        1 ≤ item.quantity ∧
        ∃ menuItem, getMenuItem menuItems item._id = some menuItem ∧
          item.quantity ≤ menuItem.stock) ∧
      ∀ itemId, itemId ∉
        (CartManager.updateQuantity menuItems (CartManager.runAll menuItems [] calls)
          itemId 0).map (fun item => item._id) := by
  have hok := runAll_ok menuItems calls [] ⟨by simp, fun item hi => absurd hi (by simp)⟩ hcalls
  refine ⟨hok.1, hok.2, fun itemId => ?_⟩
  simp only [CartManager.updateQuantity, if_true]
  exact removeFromCart_not_mem _ itemId hok.1

theorem cart_invariant_witness :
    ((CartManager.runAll burgerDb.menuItems [] burgerCalls).map (fun item => item._id)).Nodup ∧
      (∀ item ∈ CartManager.runAll burgerDb.menuItems [] burgerCalls,
        1 ≤ item.quantity ∧
        ∃ menuItem, getMenuItem burgerDb.menuItems item._id = some menuItem ∧
          item.quantity ≤ menuItem.stock) ∧
      ∀ itemId, itemId ∉
        (CartManager.updateQuantity burgerDb.menuItems
          (CartManager.runAll burgerDb.menuItems [] burgerCalls)
          itemId 0).map (fun item => item._id) :=
  cart_invariant burgerDb.menuItems burgerCalls (by decide)

/-! ## The cart's totals and the order's -/

/-- The handler on `burgerDb` for the order data the cart page posts, up to
`order.save()`. -/
theorem createOrderRead_burgerEntries :
    createOrderRead burgerDb 7 (CartManager.orderData burgerEntries) 100
      = Response.ok (burgerDraftWith (some "")) := by
  have hraw : createOrderRead burgerDb 7 (CartManager.orderData burgerEntries) 100 = Response.ok
      { order := Order.new 100 7
          [{ menuItem := 1, name := "burger", price := 8.99, quantity := 2,
             subtotal := jsMul 8.99 ((2 : Int) : ℚ) },
           { menuItem := 2, name := "juice", price := 3.99, quantity := 1,
             subtotal := jsMul 3.99 ((1 : Int) : ℚ) }]
          (jsAdd (jsAdd 0 (jsMul 8.99 ((2 : Int) : ℚ))) (jsMul 3.99 ((1 : Int) : ℚ)))
          (jsMul (jsAdd (jsAdd 0 (jsMul 8.99 ((2 : Int) : ℚ))) (jsMul 3.99 ((1 : Int) : ℚ))) 0.08)
          (jsAdd (jsAdd (jsAdd 0 (jsMul 8.99 ((2 : Int) : ℚ))) (jsMul 3.99 ((1 : Int) : ℚ)))
            (jsMul (jsAdd (jsAdd 0 (jsMul 8.99 ((2 : Int) : ℚ))) (jsMul 3.99 ((1 : Int) : ℚ)))
              0.08))
          15 (some "")
        stockUpdates := [{ id := 1, newStock := 3 }, { id := 2, newStock := 0 }] } := rfl
  rw [hraw, jsMul_8_99_two, jsMul_3_99_one, jsAdd_17_98_3_99, jsMul_21_97_tax, jsAdd_21_97_tax]
  rfl

theorem getCartTotal_burgerEntries : CartManager.getCartTotal burgerEntries = toDouble 21.97 := by
  have hraw : CartManager.getCartTotal burgerEntries
      = jsAdd (jsAdd 0 (jsMul 8.99 ((2 : Int) : ℚ))) (jsMul 3.99 ((1 : Int) : ℚ)) := rfl
  rw [hraw, jsMul_8_99_two, jsMul_3_99_one, jsAdd_17_98_3_99]

/-- C30, the code at the failing input: the cart page holds two burgers and one
juice at the catalog's prices and posts them; the server builds a document whose
subtotal, tax and total are the cart's `getCartTotal`, `getTaxAmount` and
`getFinalTotal`; but `save()` throws, the request is answered with 500 and
there is no created order for the cart's totals to agree with. -/
theorem cart_totals_order_not_created :
    (CartManager.orderData burgerEntries).items = burgerCart.items ∧
      createOrderRead burgerDb 7 (CartManager.orderData burgerEntries) 100
        = Response.ok (burgerDraftWith (some "")) ∧
      CartManager.getCartTotal burgerEntries = (burgerDraftWith (some "")).order.subtotal ∧
      CartManager.getTaxAmount burgerEntries = (burgerDraftWith (some "")).order.tax ∧
      CartManager.getFinalTotal burgerEntries = (burgerDraftWith (some "")).order.total ∧
      createOrder burgerDb 7 (CartManager.orderData burgerEntries) 100 1000
        = (Response.error ⟨500, "Server error while creating order"⟩, burgerDb) ∧
      (createOrder burgerDb 7 (CartManager.orderData burgerEntries) 100 1000).2.orders = [] := by
  refine ⟨by decide, createOrderRead_burgerEntries, getCartTotal_burgerEntries, ?_, ?_, rfl, rfl⟩
  · rw [CartManager.getTaxAmount, getCartTotal_burgerEntries, jsMul_21_97_tax]
    rfl
  · rw [CartManager.getFinalTotal, CartManager.getTaxAmount, getCartTotal_burgerEntries,
      jsMul_21_97_tax, jsAdd_21_97_tax]
    rfl

end FoodApp
